import Mathlib

/-!
Verification development for the tracked-send HTTP capture pipeline
(`TrackedClient` in `src/lib.rs`): the capture store, the two send
variants, the cookie-jar dump attachment, and the redacted view
formatter.  Rust strings are modelled as their UTF-8 byte lists,
`serde_json::Value` as an inductive `Json`, hash maps as association
lists, fallible code as `Option`/`Except`, and wall-clock instants as
naturals threaded through each pipeline phase.
-/

set_option maxHeartbeats 1000000
set_option maxRecDepth 100000

namespace ReqwestWrapLog

/-- Byte-string model of a Rust `String` / `&str`: the list of its UTF-8
bytes, each a natural below 256. -/
abbrev RStr := List Nat

/-- Build an `RStr` from characters; intended for ASCII literals, where one
character is one byte. -/
def strBytes (l : List Char) : RStr := l.map Char.toNat

/-- A UTF-8 continuation byte (`0x80..=0xBF`). -/
def contByte (b : Nat) : Bool := 128 ≤ b && b < 192

/-- Rust `str::is_char_boundary i`: true at `0` and at the byte length,
false beyond the length, and otherwise true exactly when the byte at
position `i` is not a continuation byte. -/
def isCharBoundary (s : RStr) (i : Nat) : Bool :=
  if i = 0 then true
  else if i = s.length then true
  else
    match s.get? i with
    | some b => !contByte b
    | none => false

/-- The three ASCII dots `format!` appends in `truncate`. -/
def ellipsis : RStr := [46, 46, 46]

/-- Shallow embedding of `fn truncate(s: &str, max: usize) -> String`
(src/lib.rs lines 16-22).  When the byte length exceeds `max` the Rust
code takes the byte slice `&s[0..max-3]` and appends `"..."`; the slice
panics when `max - 3` is not a character boundary, modelled as `none`. -/
def truncate (s : RStr) (max : Nat) : Option RStr :=
  if s.length > max then
    if isCharBoundary s (max - 3) then some (s.take (max - 3) ++ ellipsis)
    else none
  else some s

/-- Model of `serde_json::Value`.  Object fields are kept as an association
list in serialization order; all numbers appearing in captured data are
naturals (`u16` status, `u64` duration). -/
inductive Json : Type where
  | null : Json
  | bool : Bool → Json
  | num : Nat → Json
  | str : RStr → Json
  | arr : List Json → Json
  | obj : List (RStr × Json) → Json
deriving Repr

/-- `HashMap`/`serde_json::Map` lookup on an association list. -/
def alFind {α : Type} (m : List (RStr × α)) (k : RStr) : Option α :=
  match m with
  | [] => none
  | p :: rest => if p.1 = k then some p.2 else alFind rest k

/-- `HashMap::insert`: replace the value when the key is present, append a
fresh binding otherwise. -/
def alInsert {α : Type} (m : List (RStr × α)) (k : RStr) (v : α) : List (RStr × α) :=
  match m with
  | [] => [(k, v)]
  | p :: rest => if p.1 = k then (k, v) :: rest else p :: alInsert rest k v

/-- `HashMap::get_mut` followed by a mutation of the found entry: apply `f`
to the value bound to `k`; a no-op when the key is absent. -/
def alUpdate {α : Type} (m : List (RStr × α)) (k : RStr) (f : α → α) : List (RStr × α) :=
  match m with
  | [] => []
  | p :: rest => if p.1 = k then (p.1, f p.2) :: rest else p :: alUpdate rest k f

/-- Collapse a multi-valued header list into a `HashMap` collect: iterate in
order, later values for the same name overwrite earlier ones. -/
def collapse (l : List (RStr × RStr)) : List (RStr × RStr) :=
  l.foldl (fun m p => alInsert m p.1 p.2) []

/-- The JSON object key `headers`. -/
def kHeaders : RStr := strBytes ['h', 'e', 'a', 'd', 'e', 'r', 's']

/-- The JSON object key `cookies`. -/
def kCookies : RStr := strBytes ['c', 'o', 'o', 'k', 'i', 'e', 's']

/-- The JSON object key `set_cookies`. -/
def kSetCookies : RStr :=
  strBytes ['s', 'e', 't', '_', 'c', 'o', 'o', 'k', 'i', 'e', 's']

/-- Truncate every string value of a JSON object to `n` bytes: the loop the
`headers` pass of `truncate_fields` runs over `hdrs.values_mut()`. -/
def truncStrVals : List (RStr × Json) → Nat → Option (List (RStr × Json))
  | [], _ => some []
  | (k, Json.str s) :: rest, n => do
      let s2 ← truncate s n
      let r ← truncStrVals rest n
      some ((k, Json.str s2) :: r)
  | p :: rest, n => do
      let r ← truncStrVals rest n
      some (p :: r)

/-- Truncate every string element of a JSON array to `n` bytes: the loop the
`set_cookies` pass runs over the array items. -/
def truncStrItems : List Json → Nat → Option (List Json)
  | [], _ => some []
  | Json.str s :: rest, n => do
      let s2 ← truncate s n
      let r ← truncStrItems rest n
      some (Json.str s2 :: r)
  | v :: rest, n => do
      let r ← truncStrItems rest n
      some (v :: r)

/-- The `headers` pass: when the current object binds `headers` to an
object, truncate each of that object's string values to 50. -/
def headersPass (m : List (RStr × Json)) : Option (List (RStr × Json)) :=
  match alFind m kHeaders with
  | some (Json.obj h) => do
      let h2 ← truncStrVals h 50
      some (alUpdate m kHeaders (fun _ => Json.obj h2))
  | _ => some m

/-- The `cookies` pass: when the current object binds `cookies` to a
string, truncate it to 500. -/
def cookiesPass (m : List (RStr × Json)) : Option (List (RStr × Json)) :=
  match alFind m kCookies with
  | some (Json.str s) => do
      let s2 ← truncate s 500
      some (alUpdate m kCookies (fun _ => Json.str s2))
  | _ => some m

/-- The `set_cookies` pass: when the current object binds `set_cookies` to
an array, truncate each of its string items to 50. -/
def setCookiesPass (m : List (RStr × Json)) : Option (List (RStr × Json)) :=
  match alFind m kSetCookies with
  | some (Json.arr l) => do
      let l2 ← truncStrItems l 50
      some (alUpdate m kSetCookies (fun _ => Json.arr l2))
  | _ => some m

mutual

/-- Shallow embedding of the nested `fn truncate_fields(value: &mut Value)`
in `get_pretty_truncated_data` (src/lib.rs lines 249-280): first recurse
into every child value, then run the `headers`, `cookies` and
`set_cookies` passes on the current object.  `none` models a panic raised
by `truncate` on a byte slice that is not a character boundary. -/
def truncate_fields : Json → Option Json
  | Json.obj m => do
      let m1 ← truncate_fields_obj m
      let m2 ← headersPass m1
      let m3 ← cookiesPass m2
      let m4 ← setCookiesPass m3
      some (Json.obj m4)
  | Json.arr l => do
      let l2 ← truncate_fields_list l
      some (Json.arr l2)
  | v => some v

/-- Recursion of `truncate_fields` over the values of an object. -/
def truncate_fields_obj : List (RStr × Json) → Option (List (RStr × Json))
  | [] => some []
  | (k, v) :: rest => do
      let v2 ← truncate_fields v
      let r ← truncate_fields_obj rest
      some ((k, v2) :: r)

/-- Recursion of `truncate_fields` over the items of an array. -/
def truncate_fields_list : List Json → Option (List Json)
  | [] => some []
  | v :: rest => do
      let v2 ← truncate_fields v
      let r ← truncate_fields_list rest
      some (v2 :: r)

end

/-- The UTF-8 replacement character U+FFFD as bytes, emitted by
`String::from_utf8_lossy` for each maximal invalid subpart. -/
def replChar : RStr := [239, 191, 189]

/-- Is `c` a valid first continuation byte after the 3-byte lead `b`?
(`0xE0` requires `0xA0..=0xBF`, `0xED` requires `0x80..=0x9F`.) -/
def cont3ok (b c : Nat) : Bool :=
  if b = 224 then 160 ≤ c && c < 192
  else if b = 237 then 128 ≤ c && c < 160
  else contByte c

/-- Is `c` a valid first continuation byte after the 4-byte lead `b`?
(`0xF0` requires `0x90..=0xBF`, `0xF4` requires `0x80..=0x8F`.) -/
def cont4ok (b c : Nat) : Bool :=
  if b = 240 then 144 ≤ c && c < 192
  else if b = 244 then 128 ≤ c && c < 144
  else contByte c

/-- Byte-level model of `String::from_utf8_lossy(..).to_string()`: valid
UTF-8 sequences pass through, each maximal invalid subpart is replaced by
U+FFFD. -/
def utf8Lossy : RStr → RStr
  | [] => []
  | b :: rest =>
    if b < 128 then b :: utf8Lossy rest
    else if b < 194 then replChar ++ utf8Lossy rest
    else if b ≤ 223 then
      match rest with
      | [] => replChar
      | c :: rest2 =>
        if contByte c then b :: c :: utf8Lossy rest2
        else replChar ++ utf8Lossy (c :: rest2)
    else if b ≤ 239 then
      match rest with
      | [] => replChar
      | c :: rest2 =>
        if cont3ok b c then
          match rest2 with
          | [] => replChar
          | d :: rest3 =>
            if contByte d then b :: c :: d :: utf8Lossy rest3
            else replChar ++ utf8Lossy (d :: rest3)
        else replChar ++ utf8Lossy (c :: rest2)
    else if b ≤ 244 then
      match rest with
      | [] => replChar
      | c :: rest2 =>
        if cont4ok b c then
          match rest2 with
          | [] => replChar
          | d :: rest3 =>
            if contByte d then
              match rest3 with
              | [] => replChar
              | e :: rest4 =>
                if contByte e then b :: c :: d :: e :: utf8Lossy rest4
                else replChar ++ utf8Lossy (e :: rest4)
            else replChar ++ utf8Lossy (d :: rest3)
        else replChar ++ utf8Lossy (c :: rest2)
    else replChar ++ utf8Lossy rest

/-- `struct RequestData` (src/lib.rs lines 25-33). -/
structure RequestData : Type where
  method : RStr
  endpoint : RStr
  headers : List (RStr × RStr)
  body : Option RStr
  cookies : List (RStr × RStr)
  request_time : RStr
deriving Repr, DecidableEq

/-- `struct ResponseData` (src/lib.rs lines 35-43). -/
structure ResponseData : Type where
  status : Nat
  headers : List (RStr × RStr)
  body : RStr
  set_cookies : List RStr
  response_time : RStr
  duration_ms : Nat
deriving Repr, DecidableEq

/-- `struct RequestResponseData` (src/lib.rs lines 45-51). -/
structure RequestResponseData : Type where
  request_data : RequestData
  response_data : Option ResponseData
  error : Option RStr
  cookies : Option RStr
deriving Repr, DecidableEq

/-- The mutable state of `struct TrackedClient` relevant to the pipeline:
the capture store `collector: HashMap<String, RequestResponseData>`.  The
transport, the clock and the cookie jar are external collaborators whose
per-call contributions are passed as explicit inputs. -/
structure TrackedClient : Type where
  collector : List (RStr × RequestResponseData)
deriving Repr, DecidableEq

/-- A built `reqwest::Request` as the pipeline observes it: method, URL,
the (possibly multi-valued) header map, and the buffered body bytes when
`body().as_bytes()` yields some. -/
structure BuiltRequest : Type where
  method : RStr
  url : RStr
  headers : List (RStr × RStr)
  body : Option RStr
deriving Repr, DecidableEq

/-- A `reqwest::Response` as delivered by the transport: status, the full
multi-valued header map, the URL after redirect following, the bytes a
body read would yield, and whether the single-consumption body stream has
been consumed. -/
structure TransportResponse : Type where
  status : Nat
  headers : List (RStr × RStr)
  finalUrl : RStr
  bodyBytes : RStr
  bodyConsumed : Bool
deriving Repr, DecidableEq

/-- The lowercase header name `set-cookie` (`HeaderMap` normalizes names). -/
def kSetCookieName : RStr :=
  strBytes ['s', 'e', 't', '-', 'c', 'o', 'o', 'k', 'i', 'e']

/-- `resp.headers().get_all("set-cookie")`: the ordered values bound to the
`set-cookie` name in a multi-valued header map. -/
def getAllSetCookie (hs : List (RStr × RStr)) : List RStr :=
  hs.filterMap (fun p => if p.1 = kSetCookieName then some p.2 else none)

/-- `struct LoggedText` (src/lib.rs lines 426-432): the value
`tracked_send_text` returns to the caller. -/
structure LoggedText : Type where
  status : Nat
  headers : List (RStr × RStr)
  body : RStr
  final_url : RStr
  redirected : Bool
deriving Repr, DecidableEq

/-- The errors a tracked send surfaces, one constructor per distinct
`anyhow!` message produced in src/lib.rs: `Failed to build request`,
`Request execution failed: {e}`, `timeout on execute`,
`timeout on read body`, `read body failed`, and the errors propagated out
of `dump_cookies` by the `?` after a successful send. -/
inductive SendError : Type where
  | buildFailed : RStr → SendError
  | requestExecutionFailed : RStr → SendError
  | timeoutOnExecute : SendError
  | timeoutOnReadBody : SendError
  | readBodyFailed : RStr → SendError
  | dumpCookiesFailed : RStr → SendError
deriving Repr, DecidableEq

/-- Per-call contributions of the external collaborators to `tracked_send`:
the build outcome, the jar's cookies for the URL, the transport outcome,
the `dump_cookies` outcome, the two RFC3339 stamps taken from the wall
clock, the monotonic-clock value on entry, and the durations (ms) of the
build-and-insert phase and of the transport execute phase. -/
structure SendWorld : Type where
  build : Except RStr BuiltRequest
  cookiesForUrl : List (RStr × RStr)
  execResult : Except RStr TransportResponse
  dumpResult : Except RStr RStr
  requestTime : RStr
  responseTime : RStr
  clock0 : Nat
  dBuild : Nat
  dExec : Nat
deriving Repr

/-- The `RequestData` both send variants construct before dispatch:
headers collected into a `HashMap` (last value wins), body bytes decoded
lossily, cookies resolved by the jar collected likewise. -/
def buildRequestData (req : BuiltRequest) (cookiesForUrl : List (RStr × RStr))
    (requestTime : RStr) : RequestData :=
  { method := req.method
    endpoint := req.url
    headers := collapse req.headers
    body := req.body.map utf8Lossy
    cookies := collapse cookiesForUrl
    request_time := requestTime }

/-- Shallow embedding of `TrackedClient::tracked_send` (src/lib.rs lines
154-238), the fire-and-forget variant: build the request, insert a fresh
capture entry under `key`, start the timer, execute once; on transport
error record the error string on the entry and fail; on success take the
elapsed time, record a `ResponseData` whose body is left empty (the body
stream is never read), attach the jar dump, and return the live response.
When `dump_cookies` fails, the `?` propagates after `response_data` was
already assigned, so that assignment persists. -/
def tracked_send (st : TrackedClient) (key : RStr) (w : SendWorld) :
    Except SendError TransportResponse × TrackedClient :=
  match w.build with
  | Except.error m => (Except.error (SendError.buildFailed m), st)
  | Except.ok req =>
    let reqData := buildRequestData req w.cookiesForUrl w.requestTime
    let st1 : TrackedClient :=
      { collector := alInsert st.collector key
          { request_data := reqData
            response_data := none
            error := none
            cookies := none } }
    let start := w.clock0 + w.dBuild
    match w.execResult with
    | Except.error e =>
      let st2 : TrackedClient :=
        { collector := alUpdate st1.collector key (fun ent => { ent with error := some e }) }
      (Except.error (SendError.requestExecutionFailed e), st2)
    | Except.ok resp =>
      let duration_ms := (start + w.dExec) - start
      let rd : ResponseData :=
        { status := resp.status
          headers := collapse resp.headers
          body := []
          set_cookies := getAllSetCookie resp.headers
          response_time := w.responseTime
          duration_ms := duration_ms }
      match w.dumpResult with
      | Except.ok d =>
        let st2 : TrackedClient :=
          { collector := alUpdate st1.collector key
              (fun ent => { ent with response_data := some rd, cookies := some d }) }
        (Except.ok resp, st2)
      | Except.error m =>
        let st2 : TrackedClient :=
          { collector := alUpdate st1.collector key
              (fun ent => { ent with response_data := some rd }) }
        (Except.error (SendError.dumpCookiesFailed m), st2)

/-- Per-call contributions of the external collaborators to
`tracked_send_text`: as in `SendWorld`, plus the outcome and duration (ms)
of the pipeline's own body read. -/
structure TextSendWorld : Type where
  build : Except RStr BuiltRequest
  cookiesForUrl : List (RStr × RStr)
  execResult : Except RStr TransportResponse
  readResult : Except RStr RStr
  dumpResult : Except RStr RStr
  requestTime : RStr
  responseTime : RStr
  clock0 : Nat
  dBuild : Nat
  dExec : Nat
  dRead : Nat
deriving Repr

/-- The `tokio::time::timeout` bound (ms) on the execute phase of
`tracked_send_text`: `Duration::from_secs(20)`. -/
def execTimeoutMs : Nat := 20000

/-- The `tokio::time::timeout` bound (ms) on the body read of
`tracked_send_text`: `Duration::from_secs(25)`. -/
def readTimeoutMs : Nat := 25000

/-- The key `x-final-url` inserted into the captured header map. -/
def kXFinalUrl : RStr :=
  strBytes ['x', '-', 'f', 'i', 'n', 'a', 'l', '-', 'u', 'r', 'l']

/-- The key `x-orig-url` inserted into the captured header map. -/
def kXOrigUrl : RStr :=
  strBytes ['x', '-', 'o', 'r', 'i', 'g', '-', 'u', 'r', 'l']

/-- Shallow embedding of `TrackedClient::tracked_send_text` (src/lib.rs
lines 285-395), the read-through variant: build and insert as in
`tracked_send`; execute under a 20 s timeout (a timeout fails with
`timeout on execute` and leaves the store untouched; a transport error is
recorded on the entry); on success fix the final URL, status and headers
before the body is consumed, read the full body under a 25 s timeout
(timeout or read error again leave the store untouched), take the elapsed
time only now, record a `ResponseData` whose captured header map gains
`x-final-url` and `x-orig-url`, attach the jar dump, and return a
`LoggedText` with the transport's own headers and a redirect flag. -/
def tracked_send_text (st : TrackedClient) (key : RStr) (w : TextSendWorld) :
    Except SendError LoggedText × TrackedClient :=
  match w.build with
  | Except.error m => (Except.error (SendError.buildFailed m), st)
  | Except.ok req =>
    let origUrl := req.url
    let reqData := buildRequestData req w.cookiesForUrl w.requestTime
    let st1 : TrackedClient :=
      { collector := alInsert st.collector key
          { request_data := reqData
            response_data := none
            error := none
            cookies := none } }
    let start := w.clock0 + w.dBuild
    if w.dExec > execTimeoutMs then
      (Except.error SendError.timeoutOnExecute, st1)
    else
      match w.execResult with
      | Except.error e =>
        let st2 : TrackedClient :=
          { collector := alUpdate st1.collector key (fun ent => { ent with error := some e }) }
        (Except.error (SendError.requestExecutionFailed e), st2)
      | Except.ok resp =>
        let finalUrl := resp.finalUrl
        let status := resp.status
        let headers := resp.headers
        if w.dRead > readTimeoutMs then
          (Except.error SendError.timeoutOnReadBody, st1)
        else
          match w.readResult with
          | Except.error m => (Except.error (SendError.readBodyFailed m), st1)
          | Except.ok bodyBytes =>
            let bodyStr := utf8Lossy bodyBytes
            let duration_ms := (start + w.dExec + w.dRead) - start
            let hdrMap0 := collapse headers
            let hdrMap1 := alInsert hdrMap0 kXFinalUrl finalUrl
            let hdrMap := alInsert hdrMap1 kXOrigUrl origUrl
            let rd : ResponseData :=
              { status := status
                headers := hdrMap
                body := bodyStr
                set_cookies := getAllSetCookie headers
                response_time := w.responseTime
                duration_ms := duration_ms }
            match w.dumpResult with
            | Except.ok d =>
              let st2 : TrackedClient :=
                { collector := alUpdate st1.collector key
                    (fun ent => { ent with response_data := some rd, cookies := some d }) }
              let redirected := decide (finalUrl ≠ origUrl)
              (Except.ok
                { status := status
                  headers := headers
                  body := bodyStr
                  final_url := finalUrl
                  redirected := redirected }, st2)
            | Except.error m =>
              let st2 : TrackedClient :=
                { collector := alUpdate st1.collector key
                    (fun ent => { ent with response_data := some rd }) }
              (Except.error (SendError.dumpCookiesFailed m), st2)

/-- The JSON object key `method`. -/
def kMethod : RStr := strBytes ['m', 'e', 't', 'h', 'o', 'd']

/-- The JSON object key `endpoint`. -/
def kEndpoint : RStr := strBytes ['e', 'n', 'd', 'p', 'o', 'i', 'n', 't']

/-- The JSON object key `body`. -/
def kBody : RStr := strBytes ['b', 'o', 'd', 'y']

/-- The JSON object key `request_time`. -/
def kRequestTime : RStr :=
  strBytes ['r', 'e', 'q', 'u', 'e', 's', 't', '_', 't', 'i', 'm', 'e']

/-- The JSON object key `status`. -/
def kStatus : RStr := strBytes ['s', 't', 'a', 't', 'u', 's']

/-- The JSON object key `response_time`. -/
def kResponseTime : RStr :=
  strBytes ['r', 'e', 's', 'p', 'o', 'n', 's', 'e', '_', 't', 'i', 'm', 'e']

/-- The JSON object key `duration_ms`. -/
def kDurationMs : RStr :=
  strBytes ['d', 'u', 'r', 'a', 't', 'i', 'o', 'n', '_', 'm', 's']

/-- The JSON object key `request_data`. -/
def kRequestData : RStr :=
  strBytes ['r', 'e', 'q', 'u', 'e', 's', 't', '_', 'd', 'a', 't', 'a']

/-- The JSON object key `response_data`. -/
def kResponseData : RStr :=
  strBytes ['r', 'e', 's', 'p', 'o', 'n', 's', 'e', '_', 'd', 'a', 't', 'a']

/-- The JSON object key `error`. -/
def kError : RStr := strBytes ['e', 'r', 'r', 'o', 'r']

/-- serde serialization of a `HashMap<String, String>` as a JSON object. -/
def serializeStrMap (m : List (RStr × RStr)) : Json :=
  Json.obj (m.map (fun p => (p.1, Json.str p.2)))

/-- serde serialization of an `Option<String>`: `None` becomes `null`. -/
def serializeOptStr : Option RStr → Json
  | none => Json.null
  | some s => Json.str s

/-- serde serialization of `RequestData`, fields in declaration order. -/
def serializeRequestData (r : RequestData) : Json :=
  Json.obj
    [ (kMethod, Json.str r.method)
    , (kEndpoint, Json.str r.endpoint)
    , (kHeaders, serializeStrMap r.headers)
    , (kBody, serializeOptStr r.body)
    , (kCookies, serializeStrMap r.cookies)
    , (kRequestTime, Json.str r.request_time) ]

/-- serde serialization of `ResponseData`, fields in declaration order. -/
def serializeResponseData (r : ResponseData) : Json :=
  Json.obj
    [ (kStatus, Json.num r.status)
    , (kHeaders, serializeStrMap r.headers)
    , (kBody, Json.str r.body)
    , (kSetCookies, Json.arr (r.set_cookies.map Json.str))
    , (kResponseTime, Json.str r.response_time)
    , (kDurationMs, Json.num r.duration_ms) ]

/-- serde serialization of `RequestResponseData`. -/
def serializeEntry (e : RequestResponseData) : Json :=
  Json.obj
    [ (kRequestData, serializeRequestData e.request_data)
    , (kResponseData,
        match e.response_data with
        | none => Json.null
        | some r => serializeResponseData r)
    , (kError, serializeOptStr e.error)
    , (kCookies, serializeOptStr e.cookies) ]

/-- serde serialization of the whole collector map. -/
def serializeCollector (c : List (RStr × RequestResponseData)) : Json :=
  Json.obj (c.map (fun p => (p.1, serializeEntry p.2)))

/-- `TrackedClient::get_collected_data` (src/lib.rs lines 240-243): hold
the collector lock, serialize it, release; the store is not mutated.  The
serialized string is modelled by the JSON value it denotes. -/
def get_collected_data (st : TrackedClient) : Json × TrackedClient :=
  (serializeCollector st.collector, st)

/-- `TrackedClient::get_pretty_truncated_data` (src/lib.rs lines 245-284):
serialize the collector, parse the string back into a `Value`, run
`truncate_fields` on that copy, and pretty-print it; the store is not
mutated.  `none` models a panic inside `truncate`. -/
def get_pretty_truncated_data (st : TrackedClient) : Option Json × TrackedClient :=
  (truncate_fields (serializeCollector st.collector), st)

/-- `TrackedClient::take_collected_data` (src/lib.rs lines 396-401): under
one collector lock acquisition, serialize the map and then clear it. -/
def take_collected_data (st : TrackedClient) : Json × TrackedClient :=
  (serializeCollector st.collector, { collector := [] })

/-- `TrackedClient::clear_collector` (src/lib.rs lines 403-406). -/
def clear_collector (_st : TrackedClient) : TrackedClient :=
  { collector := [] }

/-- Inserting one entry into the collector, as both send variants do under
the caller's key before dispatch. -/
def insertEntry (st : TrackedClient) (key : RStr) (e : RequestResponseData) :
    TrackedClient :=
  { collector := alInsert st.collector key e }

mutual

/-- `shortens a b`: `b` has exactly the shape of `a` — same object keys in
the same order, same array lengths, identical non-string leaves — and
every string leaf of `b` is at most as long as the matching leaf of `a`.
This is the sense in which redaction only shortens string values and never
removes whole fields. -/
def shortens : Json → Json → Bool
  | Json.null, Json.null => true
  | Json.bool a, Json.bool b => a == b
  | Json.num a, Json.num b => a == b
  | Json.str a, Json.str b => decide (b.length ≤ a.length)
  | Json.arr a, Json.arr b => shortensList a b
  | Json.obj a, Json.obj b => shortensObj a b
  | _, _ => false

/-- `shortens` extended pointwise to array items. -/
def shortensList : List Json → List Json → Bool
  | [], [] => true
  | x :: xs, y :: ys => shortens x y && shortensList xs ys
  | _, _ => false

/-- `shortens` extended pointwise to object fields (keys must agree). -/
def shortensObj : List (RStr × Json) → List (RStr × Json) → Bool
  | [], [] => true
  | p :: xs, q :: ys => decide (p.1 = q.1) && shortens p.2 q.2 && shortensObj xs ys
  | _, _ => false

end

/-- Every string value of the object has byte length at most `n`. -/
def strValsLe (h : List (RStr × Json)) (n : Nat) : Bool :=
  h.all (fun p =>
    match p.2 with
    | Json.str s => decide (s.length ≤ n)
    | _ => true)

/-- Every string item of the array has byte length at most `n`. -/
def strItemsLe (l : List Json) (n : Nat) : Bool :=
  l.all (fun v =>
    match v with
    | Json.str s => decide (s.length ≤ n)
    | _ => true)

/-- The truncation limits the three passes of `truncate_fields` enforce on
one object: header string values at most 50 bytes, a string `cookies`
field at most 500 bytes, string `set_cookies` items at most 50 bytes. -/
def passBounds (m : List (RStr × Json)) : Bool :=
  (match alFind m kHeaders with
   | some (Json.obj h) => strValsLe h 50
   | _ => true) &&
  (match alFind m kCookies with
   | some (Json.str s) => decide (s.length ≤ 500)
   | _ => true) &&
  (match alFind m kSetCookies with
   | some (Json.arr l) => strItemsLe l 50
   | _ => true)

mutual

/-- `passBounds` holds at every object node of the value. -/
def truncBound : Json → Bool
  | Json.obj m => truncBoundObj m && passBounds m
  | Json.arr l => truncBoundList l
  | _ => true

/-- `truncBound` over the values of an object. -/
def truncBoundObj : List (RStr × Json) → Bool
  | [] => true
  | p :: rest => truncBound p.2 && truncBoundObj rest

/-- `truncBound` over the items of an array. -/
def truncBoundList : List Json → Bool
  | [] => true
  | v :: rest => truncBound v && truncBoundList rest

end

/-- An empty client, as `TrackedClient::new` creates it. -/
def exSt : TrackedClient := { collector := [] }

/-- A concrete correlation key. -/
def exKey : RStr := strBytes ['k']

/-- A concrete built GET request. -/
def exReq : BuiltRequest :=
  { method := strBytes ['G', 'E', 'T']
    url := strBytes ['u']
    headers := [(strBytes ['a'], strBytes ['1'])]
    body := none }

/-- A concrete transport response whose final URL differs from the request
URL, with an unconsumed body stream. -/
def exResp : TransportResponse :=
  { status := 200
    headers := [(strBytes ['h'], strBytes ['v'])]
    finalUrl := strBytes ['u', '2']
    bodyBytes := [111, 107]
    bodyConsumed := false }

/-- A concrete jar dump (an empty JSON array). -/
def exDump : RStr := strBytes ['[', ']']

/-- A fully successful fire-and-forget world: build, execute and jar dump
all succeed; building takes 3 ms, the execute phase 5 ms. -/
def exSW : SendWorld :=
  { build := Except.ok exReq
    cookiesForUrl := [(strBytes ['n'], strBytes ['v'])]
    execResult := Except.ok exResp
    dumpResult := Except.ok exDump
    requestTime := strBytes ['t', '1']
    responseTime := strBytes ['t', '2']
    clock0 := 100
    dBuild := 3
    dExec := 5 }

/-- A fire-and-forget world whose transport call fails. -/
def exSWerr : SendWorld :=
  { exSW with execResult := Except.error (strBytes ['b', 'a', 'd']) }

/-- A fully successful read-through world: execute takes 5 ms and the
pipeline body read 7 ms, both within their bounds. -/
def exTW : TextSendWorld :=
  { build := Except.ok exReq
    cookiesForUrl := []
    execResult := Except.ok exResp
    readResult := Except.ok [111, 107]
    dumpResult := Except.ok exDump
    requestTime := strBytes ['t', '1']
    responseTime := strBytes ['t', '2']
    clock0 := 100
    dBuild := 3
    dExec := 5
    dRead := 7 }

/-- A read-through world whose transport call succeeds but whose body read
fails (within its time bound). -/
def exTWreadErr : TextSendWorld :=
  { exTW with readResult := Except.error (strBytes ['b', 'o', 'o', 'm']) }

/-- A read-through world whose transport call fails. -/
def exTWexecErr : TextSendWorld :=
  { exTW with execResult := Except.error (strBytes ['b', 'a', 'd']) }

/-- A read-through world whose execute phase takes 20001 ms, exceeding the
20 s bound. -/
def exTWslowExec : TextSendWorld :=
  { exTW with dExec := 20001 }

/-- A read-through world whose body read takes 25001 ms, exceeding the
25 s bound. -/
def exTWslowRead : TextSendWorld :=
  { exTW with dRead := 25001 }

/-- An ASCII header value of byte length 80 (eighty times `a`). -/
def ex80 : RStr := List.replicate 80 97

/-- An ASCII header value of byte length 40. -/
def ex40 : RStr := List.replicate 40 97

/-- Sixty copies of the two-byte UTF-8 encoding `0xD0 0xAF` of the
Cyrillic capital letter Ya: a valid 60-character, 120-byte string. -/
def cyr60 : RStr := (List.replicate 60 [208, 175]).flatten

/-- A small snapshot-shaped JSON value exercising all three passes of
`truncate_fields`: an over-long header value, an over-long cookie dump
and an over-long `Set-Cookie` entry. -/
def exJ : Json :=
  Json.obj
    [ (kHeaders, Json.obj [(strBytes ['a'], Json.str ex80)])
    , (kCookies, Json.str (List.replicate 600 97))
    , (kSetCookies, Json.arr [Json.str (List.replicate 60 97)]) ]

/-- A placeholder capture entry, used only as the default of `Option.getD`
when a lookup is already known to succeed. -/
def defaultEntry : RequestResponseData :=
  { request_data :=
      { method := []
        endpoint := []
        headers := []
        body := none
        cookies := []
        request_time := [] }
    response_data := none
    error := none
    cookies := none }

/-- The fresh capture entry both variants insert before dispatch. -/
def dispatchEntry (req : BuiltRequest) (cookiesForUrl : List (RStr × RStr))
    (requestTime : RStr) : RequestResponseData :=
  { request_data := buildRequestData req cookiesForUrl requestTime
    response_data := none
    error := none
    cookies := none }

theorem alFind_alInsert_self {α : Type} (m : List (RStr × α)) (k : RStr) (v : α) :
    alFind (alInsert m k v) k = some v := by
  induction m with
  | nil => simp [alInsert, alFind]
  | cons p rest ih =>
    by_cases h : p.1 = k
    · simp [alInsert, alFind, h]
    · simp [alInsert, alFind, h, ih]

theorem alFind_alInsert_ne {α : Type} (m : List (RStr × α)) (k k2 : RStr) (v : α)
    (h : k2 ≠ k) : alFind (alInsert m k v) k2 = alFind m k2 := by
  induction m with
  | nil => simp [alInsert, alFind, Ne.symm h]
  | cons p rest ih =>
    by_cases hp : p.1 = k
    · simp [alInsert, alFind, hp, Ne.symm h]
    · simp only [alInsert, if_neg hp, alFind, ih]

theorem alFind_alUpdate_self {α : Type} (m : List (RStr × α)) (k : RStr) (f : α → α) :
    alFind (alUpdate m k f) k = (alFind m k).map f := by
  induction m with
  | nil => simp [alUpdate, alFind]
  | cons p rest ih =>
    by_cases h : p.1 = k
    · simp [alUpdate, alFind, h]
    · simp [alUpdate, alFind, h, ih]

theorem alFind_alUpdate_ne {α : Type} (m : List (RStr × α)) (k k2 : RStr) (f : α → α)
    (h : k2 ≠ k) : alFind (alUpdate m k f) k2 = alFind m k2 := by
  induction m with
  | nil => simp [alUpdate]
  | cons p rest ih =>
    by_cases hp : p.1 = k
    · simp [alUpdate, alFind, hp, Ne.symm h]
    · simp only [alUpdate, if_neg hp, alFind, ih]

theorem tracked_send_eq_ok (st : TrackedClient) (key : RStr) (w : SendWorld)
    (req : BuiltRequest) (resp : TransportResponse) (d : RStr)
    (hb : w.build = Except.ok req) (he : w.execResult = Except.ok resp)
    (hd : w.dumpResult = Except.ok d) :
    tracked_send st key w = (Except.ok resp,
      { collector := alUpdate
          (alInsert st.collector key (dispatchEntry req w.cookiesForUrl w.requestTime)) key
          (fun ent => { ent with
            response_data := some
              { status := resp.status
                headers := collapse resp.headers
                body := []
                set_cookies := getAllSetCookie resp.headers
                response_time := w.responseTime
                duration_ms := w.dExec }
            cookies := some d }) }) := by
  unfold tracked_send
  rw [hb, he, hd]
  simp [dispatchEntry, Nat.add_sub_cancel_left]

theorem tracked_send_eq_dump_err (st : TrackedClient) (key : RStr) (w : SendWorld)
    (req : BuiltRequest) (resp : TransportResponse) (m : RStr)
    (hb : w.build = Except.ok req) (he : w.execResult = Except.ok resp)
    (hd : w.dumpResult = Except.error m) :
    tracked_send st key w = (Except.error (SendError.dumpCookiesFailed m),
      { collector := alUpdate
          (alInsert st.collector key (dispatchEntry req w.cookiesForUrl w.requestTime)) key
          (fun ent => { ent with
            response_data := some
              { status := resp.status
                headers := collapse resp.headers
                body := []
                set_cookies := getAllSetCookie resp.headers
                response_time := w.responseTime
                duration_ms := w.dExec } }) }) := by
  unfold tracked_send
  rw [hb, he, hd]
  simp [dispatchEntry, Nat.add_sub_cancel_left]

theorem tracked_send_eq_exec_err (st : TrackedClient) (key : RStr) (w : SendWorld)
    (req : BuiltRequest) (e : RStr)
    (hb : w.build = Except.ok req) (he : w.execResult = Except.error e) :
    tracked_send st key w = (Except.error (SendError.requestExecutionFailed e),
      { collector := alUpdate
          (alInsert st.collector key (dispatchEntry req w.cookiesForUrl w.requestTime)) key
          (fun ent => { ent with error := some e }) }) := by
  unfold tracked_send
  rw [hb, he]
  simp [dispatchEntry]

theorem tracked_send_text_eq_ok (st : TrackedClient) (key : RStr) (w : TextSendWorld)
    (req : BuiltRequest) (resp : TransportResponse) (bodyB : RStr) (d : RStr)
    (hb : w.build = Except.ok req) (hde : w.dExec ≤ execTimeoutMs)
    (he : w.execResult = Except.ok resp) (hdr : w.dRead ≤ readTimeoutMs)
    (hr : w.readResult = Except.ok bodyB) (hd : w.dumpResult = Except.ok d) :
    tracked_send_text st key w = (Except.ok
      { status := resp.status
        headers := resp.headers
        body := utf8Lossy bodyB
        final_url := resp.finalUrl
        redirected := decide (resp.finalUrl ≠ req.url) },
      { collector := alUpdate
          (alInsert st.collector key (dispatchEntry req w.cookiesForUrl w.requestTime)) key
          (fun ent => { ent with
            response_data := some
              { status := resp.status
                headers := alInsert
                  (alInsert (collapse resp.headers) kXFinalUrl resp.finalUrl)
                  kXOrigUrl req.url
                body := utf8Lossy bodyB
                set_cookies := getAllSetCookie resp.headers
                response_time := w.responseTime
                duration_ms := w.dExec + w.dRead }
            cookies := some d }) }) := by
  unfold tracked_send_text
  rw [hb, he, hr, hd]
  have h1 : ¬ (w.dExec > execTimeoutMs) := by omega
  have h2 : ¬ (w.dRead > readTimeoutMs) := by omega
  have h3 : w.clock0 + w.dBuild + w.dExec + w.dRead - (w.clock0 + w.dBuild) =
      w.dExec + w.dRead := by omega
  simp [h1, h2, dispatchEntry, h3]

theorem tracked_send_text_eq_exec_timeout (st : TrackedClient) (key : RStr)
    (w : TextSendWorld) (req : BuiltRequest)
    (hb : w.build = Except.ok req) (hde : w.dExec > execTimeoutMs) :
    tracked_send_text st key w = (Except.error SendError.timeoutOnExecute,
      { collector := alInsert st.collector key
          (dispatchEntry req w.cookiesForUrl w.requestTime) }) := by
  unfold tracked_send_text
  rw [hb]
  simp [hde, dispatchEntry]

theorem tracked_send_text_eq_exec_err (st : TrackedClient) (key : RStr)
    (w : TextSendWorld) (req : BuiltRequest) (e : RStr)
    (hb : w.build = Except.ok req) (hde : w.dExec ≤ execTimeoutMs)
    (he : w.execResult = Except.error e) :
    tracked_send_text st key w = (Except.error (SendError.requestExecutionFailed e),
      { collector := alUpdate
          (alInsert st.collector key (dispatchEntry req w.cookiesForUrl w.requestTime)) key
          (fun ent => { ent with error := some e }) }) := by
  unfold tracked_send_text
  rw [hb, he]
  have h1 : ¬ (w.dExec > execTimeoutMs) := by omega
  simp [h1, dispatchEntry]

theorem tracked_send_text_eq_read_timeout (st : TrackedClient) (key : RStr)
    (w : TextSendWorld) (req : BuiltRequest) (resp : TransportResponse)
    (hb : w.build = Except.ok req) (hde : w.dExec ≤ execTimeoutMs)
    (he : w.execResult = Except.ok resp) (hdr : w.dRead > readTimeoutMs) :
    tracked_send_text st key w = (Except.error SendError.timeoutOnReadBody,
      { collector := alInsert st.collector key
          (dispatchEntry req w.cookiesForUrl w.requestTime) }) := by
  unfold tracked_send_text
  rw [hb, he]
  have h1 : ¬ (w.dExec > execTimeoutMs) := by omega
  simp [h1, hdr, dispatchEntry]

theorem tracked_send_text_eq_read_err (st : TrackedClient) (key : RStr)
    (w : TextSendWorld) (req : BuiltRequest) (resp : TransportResponse) (m : RStr)
    (hb : w.build = Except.ok req) (hde : w.dExec ≤ execTimeoutMs)
    (he : w.execResult = Except.ok resp) (hdr : w.dRead ≤ readTimeoutMs)
    (hr : w.readResult = Except.error m) :
    tracked_send_text st key w = (Except.error (SendError.readBodyFailed m),
      { collector := alInsert st.collector key
          (dispatchEntry req w.cookiesForUrl w.requestTime) }) := by
  unfold tracked_send_text
  rw [hb, he, hr]
  have h1 : ¬ (w.dExec > execTimeoutMs) := by omega
  have h2 : ¬ (w.dRead > readTimeoutMs) := by omega
  simp [h1, h2, dispatchEntry]

theorem tracked_send_text_eq_dump_err (st : TrackedClient) (key : RStr)
    (w : TextSendWorld) (req : BuiltRequest) (resp : TransportResponse)
    (bodyB : RStr) (m : RStr)
    (hb : w.build = Except.ok req) (hde : w.dExec ≤ execTimeoutMs)
    (he : w.execResult = Except.ok resp) (hdr : w.dRead ≤ readTimeoutMs)
    (hr : w.readResult = Except.ok bodyB) (hd : w.dumpResult = Except.error m) :
    tracked_send_text st key w = (Except.error (SendError.dumpCookiesFailed m),
      { collector := alUpdate
          (alInsert st.collector key (dispatchEntry req w.cookiesForUrl w.requestTime)) key
          (fun ent => { ent with
            response_data := some
              { status := resp.status
                headers := alInsert
                  (alInsert (collapse resp.headers) kXFinalUrl resp.finalUrl)
                  kXOrigUrl req.url
                body := utf8Lossy bodyB
                set_cookies := getAllSetCookie resp.headers
                response_time := w.responseTime
                duration_ms := w.dExec + w.dRead } }) }) := by
  unfold tracked_send_text
  rw [hb, he, hr, hd]
  have h1 : ¬ (w.dExec > execTimeoutMs) := by omega
  have h2 : ¬ (w.dRead > readTimeoutMs) := by omega
  have h3 : w.clock0 + w.dBuild + w.dExec + w.dRead - (w.clock0 + w.dBuild) =
      w.dExec + w.dRead := by omega
  simp [h1, h2, dispatchEntry, h3]

theorem alFind_insert_update {α : Type} (m : List (RStr × α)) (k : RStr) (v : α)
    (f : α → α) : alFind (alUpdate (alInsert m k v) k f) k = some (f v) := by
  rw [alFind_alUpdate_self, alFind_alInsert_self]
  rfl

/-- C6: producing the redacted view never mutates the underlying capture
store: `get_pretty_truncated_data` leaves the client state unchanged,
calling it twice on the same store state yields identical output, and a
subsequent `get_collected_data` still returns the serialization of the
original, un-truncated entries. -/
theorem c6_redacted_view_pure (st : TrackedClient) :
    (get_pretty_truncated_data st).2 = st ∧
    (get_pretty_truncated_data st).1 =
      (get_pretty_truncated_data (get_pretty_truncated_data st).2).1 ∧
    (get_collected_data (get_pretty_truncated_data st).2).1 =
      serializeCollector st.collector :=
  ⟨rfl, rfl, rfl⟩

/-- C8: `take_collected_data` snapshots and clears the capture store in one
critical section: it returns the serialization of exactly the entries
present when it runs and leaves the store empty, so every entry is either
in the drained batch or (vacuously) still in the store, never both; and an
entry inserted after the drain returns appears in a subsequent
`get_collected_data` snapshot. -/
theorem c8_drain_atomic (st : TrackedClient) :
    (take_collected_data st).1 = serializeCollector st.collector ∧
    (take_collected_data st).2.collector = [] ∧
    ∀ key ent,
      (get_collected_data (insertEntry (take_collected_data st).2 key ent)).1 =
        Json.obj [(key, serializeEntry ent)] :=
  ⟨rfl, rfl, fun _ _ => rfl⟩

/-- C3: in the fire-and-forget variant (`tracked_send`), for every
successful send the pipeline never reads the response body: the stored
`ResponseData.body` is the empty string, and the caller receives the
transport's live response value unchanged, its single-consumption body
stream still unconsumed. -/
theorem c3_fire_and_forget_body (st : TrackedClient) (key : RStr) (w : SendWorld)
    (req : BuiltRequest) (resp : TransportResponse) (d : RStr)
    (hb : w.build = Except.ok req) (he : w.execResult = Except.ok resp)
    (hd : w.dumpResult = Except.ok d) :
    (tracked_send st key w).1 = Except.ok resp ∧
    (resp.bodyConsumed = false →
      ∃ r, (tracked_send st key w).1 = Except.ok r ∧ r.bodyConsumed = false) ∧
    ∃ ent rd, alFind (tracked_send st key w).2.collector key = some ent ∧
      ent.response_data = some rd ∧ rd.body = [] := by
  rw [tracked_send_eq_ok st key w req resp d hb he hd]
  refine ⟨rfl, fun hc => ⟨resp, rfl, hc⟩, ?_⟩
  refine
    ⟨{ dispatchEntry req w.cookiesForUrl w.requestTime with
        response_data := some
          { status := resp.status
            headers := collapse resp.headers
            body := []
            set_cookies := getAllSetCookie resp.headers
            response_time := w.responseTime
            duration_ms := w.dExec }
        cookies := some d },
      { status := resp.status
        headers := collapse resp.headers
        body := []
        set_cookies := getAllSetCookie resp.headers
        response_time := w.responseTime
        duration_ms := w.dExec }, ?_, rfl, rfl⟩
  rw [alFind_alUpdate_self, alFind_alInsert_self]
  rfl

/-- Witness for C3 at a concrete successful fire-and-forget run. -/
theorem c3_fire_and_forget_body_witness :
    (tracked_send exSt exKey exSW).1 = Except.ok exResp ∧
    (exResp.bodyConsumed = false →
      ∃ r, (tracked_send exSt exKey exSW).1 = Except.ok r ∧ r.bodyConsumed = false) ∧
    ∃ ent rd, alFind (tracked_send exSt exKey exSW).2.collector exKey = some ent ∧
      ent.response_data = some rd ∧ rd.body = [] :=
  c3_fire_and_forget_body exSt exKey exSW exReq exResp exDump rfl rfl rfl

/-- C4: in the variant that has timeout bounds (`tracked_send_text`, 20 s
on execute and 25 s on the body read), a phase exceeding its bound fails
the call with a timeout error distinguishable from a transport error, and
the capture entry under the key is left exactly as the pre-dispatch insert
wrote it: request snapshot present, `response_data`, `error` and `cookies`
all unset. -/
theorem c4_timeout_isolated :
    (∀ st key w req, w.build = Except.ok req → execTimeoutMs < w.dExec →
        (tracked_send_text st key w).1 = Except.error SendError.timeoutOnExecute ∧
        alFind (tracked_send_text st key w).2.collector key =
          some (dispatchEntry req w.cookiesForUrl w.requestTime)) ∧
    (∀ st key w req resp, w.build = Except.ok req → w.dExec ≤ execTimeoutMs →
        w.execResult = Except.ok resp → readTimeoutMs < w.dRead →
        (tracked_send_text st key w).1 = Except.error SendError.timeoutOnReadBody ∧
        alFind (tracked_send_text st key w).2.collector key =
          some (dispatchEntry req w.cookiesForUrl w.requestTime)) ∧
    (∀ m, SendError.timeoutOnExecute ≠ SendError.requestExecutionFailed m) ∧
    (∀ m, SendError.timeoutOnReadBody ≠ SendError.requestExecutionFailed m) := by
  refine ⟨?_, ?_, ?_, ?_⟩
  · intro st key w req hb hde
    rw [tracked_send_text_eq_exec_timeout st key w req hb hde]
    exact ⟨rfl, alFind_alInsert_self st.collector key _⟩
  · intro st key w req resp hb hde he hdr
    rw [tracked_send_text_eq_read_timeout st key w req resp hb hde he hdr]
    exact ⟨rfl, alFind_alInsert_self st.collector key _⟩
  · intro m h
    exact SendError.noConfusion h
  · intro m h
    exact SendError.noConfusion h

/-- Witness for C4 at concrete runs: an execute phase of 20001 ms and a
body read of 25001 ms. -/
theorem c4_timeout_isolated_witness :
    ((tracked_send_text exSt exKey exTWslowExec).1 =
        Except.error SendError.timeoutOnExecute ∧
      alFind (tracked_send_text exSt exKey exTWslowExec).2.collector exKey =
        some (dispatchEntry exReq exTWslowExec.cookiesForUrl exTWslowExec.requestTime)) ∧
    ((tracked_send_text exSt exKey exTWslowRead).1 =
        Except.error SendError.timeoutOnReadBody ∧
      alFind (tracked_send_text exSt exKey exTWslowRead).2.collector exKey =
        some (dispatchEntry exReq exTWslowRead.cookiesForUrl exTWslowRead.requestTime)) ∧
    SendError.timeoutOnExecute ≠ SendError.requestExecutionFailed (strBytes ['x']) :=
  ⟨c4_timeout_isolated.1 exSt exKey exTWslowExec exReq rfl (by decide),
   c4_timeout_isolated.2.1 exSt exKey exTWslowRead exReq exResp rfl (by decide) rfl
     (by decide),
   c4_timeout_isolated.2.2.1 (strBytes ['x'])⟩

/-- C7: in the read-through variant, for every successful send the
pipeline itself reads the full body and returns status, headers, the
decoded body text, the post-redirect final URL and a redirect flag that is
true exactly when the final URL differs from the original request URL;
both URLs are recorded inside the capture entry (as the `x-final-url` and
`x-orig-url` fields of the captured header map). -/
theorem c7_read_through_returns (st : TrackedClient) (key : RStr)
    (w : TextSendWorld) (req : BuiltRequest) (resp : TransportResponse)
    (bodyB d : RStr)
    (hb : w.build = Except.ok req) (hde : w.dExec ≤ execTimeoutMs)
    (he : w.execResult = Except.ok resp) (hdr : w.dRead ≤ readTimeoutMs)
    (hr : w.readResult = Except.ok bodyB) (hd : w.dumpResult = Except.ok d) :
    ∃ lt, (tracked_send_text st key w).1 = Except.ok lt ∧
      lt.status = resp.status ∧ lt.headers = resp.headers ∧
      lt.body = utf8Lossy bodyB ∧ lt.final_url = resp.finalUrl ∧
      (lt.redirected = true ↔ resp.finalUrl ≠ req.url) ∧
      ∃ ent rd, alFind (tracked_send_text st key w).2.collector key = some ent ∧
        ent.response_data = some rd ∧ rd.body = utf8Lossy bodyB ∧
        alFind rd.headers kXFinalUrl = some resp.finalUrl ∧
        alFind rd.headers kXOrigUrl = some req.url := by
  rw [tracked_send_text_eq_ok st key w req resp bodyB d hb hde he hdr hr hd]
  refine ⟨_, rfl, rfl, rfl, rfl, rfl, by simp, ?_⟩
  refine
    ⟨{ dispatchEntry req w.cookiesForUrl w.requestTime with
        response_data := some
          { status := resp.status
            headers := alInsert
              (alInsert (collapse resp.headers) kXFinalUrl resp.finalUrl)
              kXOrigUrl req.url
            body := utf8Lossy bodyB
            set_cookies := getAllSetCookie resp.headers
            response_time := w.responseTime
            duration_ms := w.dExec + w.dRead }
        cookies := some d },
      { status := resp.status
        headers := alInsert
          (alInsert (collapse resp.headers) kXFinalUrl resp.finalUrl)
          kXOrigUrl req.url
        body := utf8Lossy bodyB
        set_cookies := getAllSetCookie resp.headers
        response_time := w.responseTime
        duration_ms := w.dExec + w.dRead }, ?_, rfl, rfl, ?_, ?_⟩
  · rw [alFind_alUpdate_self, alFind_alInsert_self]
    rfl
  · rw [alFind_alInsert_ne _ _ _ _ (by decide), alFind_alInsert_self]
  · rw [alFind_alInsert_self]

/-- Witness for C7 at a concrete successful read-through run whose final
URL differs from the request URL. -/
theorem c7_read_through_returns_witness :
    ∃ lt, (tracked_send_text exSt exKey exTW).1 = Except.ok lt ∧
      lt.status = exResp.status ∧ lt.headers = exResp.headers ∧
      lt.body = utf8Lossy [111, 107] ∧ lt.final_url = exResp.finalUrl ∧
      (lt.redirected = true ↔ exResp.finalUrl ≠ exReq.url) ∧
      ∃ ent rd, alFind (tracked_send_text exSt exKey exTW).2.collector exKey = some ent ∧
        ent.response_data = some rd ∧ rd.body = utf8Lossy [111, 107] ∧
        alFind rd.headers kXFinalUrl = some exResp.finalUrl ∧
        alFind rd.headers kXOrigUrl = some exReq.url :=
  c7_read_through_returns exSt exKey exTW exReq exResp [111, 107] exDump rfl
    (by decide) rfl (by decide) rfl rfl

/-- C10: in the read-through variant, for every successful send the
captured response header map holds the transport's response headers
(collapsed name-by-name, last value winning) plus the two synthetic
entries `x-final-url` and `x-orig-url` carrying the post-redirect final
URL and the original request URL; the headers returned to the caller are
exactly the transport's and gain no synthetic entry. -/
theorem c10_synthetic_url_headers (st : TrackedClient) (key : RStr)
    (w : TextSendWorld) (req : BuiltRequest) (resp : TransportResponse)
    (bodyB d : RStr)
    (hb : w.build = Except.ok req) (hde : w.dExec ≤ execTimeoutMs)
    (he : w.execResult = Except.ok resp) (hdr : w.dRead ≤ readTimeoutMs)
    (hr : w.readResult = Except.ok bodyB) (hd : w.dumpResult = Except.ok d) :
    ∃ ent rd, alFind (tracked_send_text st key w).2.collector key = some ent ∧
      ent.response_data = some rd ∧
      alFind rd.headers kXFinalUrl = some resp.finalUrl ∧
      alFind rd.headers kXOrigUrl = some req.url ∧
      (∀ k2, k2 ≠ kXFinalUrl → k2 ≠ kXOrigUrl →
        alFind rd.headers k2 = alFind (collapse resp.headers) k2) ∧
      ∃ lt, (tracked_send_text st key w).1 = Except.ok lt ∧
        lt.headers = resp.headers := by
  rw [tracked_send_text_eq_ok st key w req resp bodyB d hb hde he hdr hr hd]
  refine
    ⟨{ dispatchEntry req w.cookiesForUrl w.requestTime with
        response_data := some
          { status := resp.status
            headers := alInsert
              (alInsert (collapse resp.headers) kXFinalUrl resp.finalUrl)
              kXOrigUrl req.url
            body := utf8Lossy bodyB
            set_cookies := getAllSetCookie resp.headers
            response_time := w.responseTime
            duration_ms := w.dExec + w.dRead }
        cookies := some d },
      { status := resp.status
        headers := alInsert
          (alInsert (collapse resp.headers) kXFinalUrl resp.finalUrl)
          kXOrigUrl req.url
        body := utf8Lossy bodyB
        set_cookies := getAllSetCookie resp.headers
        response_time := w.responseTime
        duration_ms := w.dExec + w.dRead }, ?_, rfl, ?_, ?_, ?_, _, rfl, rfl⟩
  · rw [alFind_alUpdate_self, alFind_alInsert_self]
    rfl
  · rw [alFind_alInsert_ne _ _ _ _ (by decide), alFind_alInsert_self]
  · rw [alFind_alInsert_self]
  · intro k2 h1 h2
    rw [alFind_alInsert_ne _ _ _ _ h2, alFind_alInsert_ne _ _ _ _ h1]

/-- Witness for C10 at a concrete successful read-through run. -/
theorem c10_synthetic_url_headers_witness :
    ∃ ent rd, alFind (tracked_send_text exSt exKey exTW).2.collector exKey = some ent ∧
      ent.response_data = some rd ∧
      alFind rd.headers kXFinalUrl = some exResp.finalUrl ∧
      alFind rd.headers kXOrigUrl = some exReq.url ∧
      (∀ k2, k2 ≠ kXFinalUrl → k2 ≠ kXOrigUrl →
        alFind rd.headers k2 = alFind (collapse exResp.headers) k2) ∧
      ∃ lt, (tracked_send_text exSt exKey exTW).1 = Except.ok lt ∧
        lt.headers = exResp.headers :=
  c10_synthetic_url_headers exSt exKey exTW exReq exResp [111, 107] exDump rfl
    (by decide) rfl (by decide) rfl rfl

/-- C2 (amended): `duration_ms` is a `u64`, hence never negative, and the
timer starts immediately before the transport execute in both variants; in
the fire-and-forget variant its value is taken immediately after execute
returns, so the recorded duration is exactly the execute-phase duration,
excluding building and any body read — but in the read-through variant the
value is taken only after the pipeline's own body read, so the recorded
duration is the execute-phase duration plus the pipeline body-read
duration (still excluding building and any caller-side read). -/
theorem c2_duration_measures_phases :
    (∀ st key w req resp, w.build = Except.ok req → w.execResult = Except.ok resp →
        ∃ ent rd, alFind (tracked_send st key w).2.collector key = some ent ∧
          ent.response_data = some rd ∧ rd.duration_ms = w.dExec) ∧
    (∀ st key w req resp bodyB, w.build = Except.ok req → w.dExec ≤ execTimeoutMs →
        w.execResult = Except.ok resp → w.dRead ≤ readTimeoutMs →
        w.readResult = Except.ok bodyB →
        ∃ ent rd, alFind (tracked_send_text st key w).2.collector key = some ent ∧
          ent.response_data = some rd ∧ rd.duration_ms = w.dExec + w.dRead) ∧
    ∀ rd : ResponseData, 0 ≤ rd.duration_ms := by
  refine ⟨?_, ?_, fun rd => Nat.zero_le _⟩
  · intro st key w req resp hb he
    rcases hd : w.dumpResult with m | d
    · rw [tracked_send_eq_dump_err st key w req resp m hb he hd]
      refine
        ⟨{ dispatchEntry req w.cookiesForUrl w.requestTime with
            response_data := some
              { status := resp.status
                headers := collapse resp.headers
                body := []
                set_cookies := getAllSetCookie resp.headers
                response_time := w.responseTime
                duration_ms := w.dExec } },
          { status := resp.status
            headers := collapse resp.headers
            body := []
            set_cookies := getAllSetCookie resp.headers
            response_time := w.responseTime
            duration_ms := w.dExec }, ?_, rfl, rfl⟩
      rw [alFind_alUpdate_self, alFind_alInsert_self]
      rfl
    · rw [tracked_send_eq_ok st key w req resp d hb he hd]
      refine
        ⟨{ dispatchEntry req w.cookiesForUrl w.requestTime with
            response_data := some
              { status := resp.status
                headers := collapse resp.headers
                body := []
                set_cookies := getAllSetCookie resp.headers
                response_time := w.responseTime
                duration_ms := w.dExec }
            cookies := some d },
          { status := resp.status
            headers := collapse resp.headers
            body := []
            set_cookies := getAllSetCookie resp.headers
            response_time := w.responseTime
            duration_ms := w.dExec }, ?_, rfl, rfl⟩
      rw [alFind_alUpdate_self, alFind_alInsert_self]
      rfl
  · intro st key w req resp bodyB hb hde he hdr hr
    rcases hd : w.dumpResult with m | d
    · rw [tracked_send_text_eq_dump_err st key w req resp bodyB m hb hde he hdr hr hd]
      refine
        ⟨{ dispatchEntry req w.cookiesForUrl w.requestTime with
            response_data := some
              { status := resp.status
                headers := alInsert
                  (alInsert (collapse resp.headers) kXFinalUrl resp.finalUrl)
                  kXOrigUrl req.url
                body := utf8Lossy bodyB
                set_cookies := getAllSetCookie resp.headers
                response_time := w.responseTime
                duration_ms := w.dExec + w.dRead } },
          { status := resp.status
            headers := alInsert
              (alInsert (collapse resp.headers) kXFinalUrl resp.finalUrl)
              kXOrigUrl req.url
            body := utf8Lossy bodyB
            set_cookies := getAllSetCookie resp.headers
            response_time := w.responseTime
            duration_ms := w.dExec + w.dRead }, ?_, rfl, rfl⟩
      rw [alFind_alUpdate_self, alFind_alInsert_self]
      rfl
    · rw [tracked_send_text_eq_ok st key w req resp bodyB d hb hde he hdr hr hd]
      refine
        ⟨{ dispatchEntry req w.cookiesForUrl w.requestTime with
            response_data := some
              { status := resp.status
                headers := alInsert
                  (alInsert (collapse resp.headers) kXFinalUrl resp.finalUrl)
                  kXOrigUrl req.url
                body := utf8Lossy bodyB
                set_cookies := getAllSetCookie resp.headers
                response_time := w.responseTime
                duration_ms := w.dExec + w.dRead }
            cookies := some d },
          { status := resp.status
            headers := alInsert
              (alInsert (collapse resp.headers) kXFinalUrl resp.finalUrl)
              kXOrigUrl req.url
            body := utf8Lossy bodyB
            set_cookies := getAllSetCookie resp.headers
            response_time := w.responseTime
            duration_ms := w.dExec + w.dRead }, ?_, rfl, rfl⟩
      rw [alFind_alUpdate_self, alFind_alInsert_self]
      rfl

/-- C2 counterexample: a concrete read-through run whose execute phase
lasts 5 ms and whose pipeline body read lasts 7 ms records
`duration_ms = 12`, not the execute-only value 5 the claim requires, so
the recorded duration does not exclude the pipeline-side body read. -/
theorem c2_duration_counterexample :
    exTW.dExec = 5 ∧ exTW.dRead = 7 ∧
    (alFind (tracked_send_text exSt exKey exTW).2.collector exKey).map
        (fun ent => ent.response_data.map ResponseData.duration_ms) =
      some (some 12) ∧
    (12 : Nat) ≠ 5 :=
  ⟨rfl, rfl, rfl, by decide⟩

/-- Witness for the amended C2 at concrete runs of both variants. -/
theorem c2_duration_measures_phases_witness :
    (∃ ent rd, alFind (tracked_send exSt exKey exSW).2.collector exKey = some ent ∧
        ent.response_data = some rd ∧ rd.duration_ms = exSW.dExec) ∧
    (∃ ent rd, alFind (tracked_send_text exSt exKey exTW).2.collector exKey = some ent ∧
        ent.response_data = some rd ∧ rd.duration_ms = exTW.dExec + exTW.dRead) ∧
    0 ≤ (ResponseData.mk 200 [] [] [] [] 0).duration_ms :=
  ⟨c2_duration_measures_phases.1 exSt exKey exSW exReq exResp rfl rfl,
   c2_duration_measures_phases.2.1 exSt exKey exTW exReq exResp [111, 107] rfl
     (by decide) rfl (by decide) rfl,
   c2_duration_measures_phases.2.2 (ResponseData.mk 200 [] [] [] [] 0)⟩

/-- C1 (amended): when the transport call succeeds — and, in the
read-through variant, the body read also succeeds within its bound — the
capture entry under the caller's key has `response_data` present and
`error` absent; when the transport call itself fails (with a non-empty
message), the entry has `error` present and non-empty and `response_data`
absent; a read-through send whose body read fails or times out leaves the
entry with neither field set; and in every completed run of either variant
the entry never carries both a response and an error. -/
theorem c1_capture_outcome :
    (∀ st key w req resp, w.build = Except.ok req → w.execResult = Except.ok resp →
        ∃ ent, alFind (tracked_send st key w).2.collector key = some ent ∧
          ent.response_data.isSome = true ∧ ent.error = none) ∧
    (∀ st key w req e, w.build = Except.ok req → w.execResult = Except.error e →
        e ≠ [] →
        ∃ ent, alFind (tracked_send st key w).2.collector key = some ent ∧
          ent.error = some e ∧ e ≠ [] ∧ ent.response_data = none) ∧
    (∀ st key w req resp bodyB, w.build = Except.ok req → w.dExec ≤ execTimeoutMs →
        w.execResult = Except.ok resp → w.dRead ≤ readTimeoutMs →
        w.readResult = Except.ok bodyB →
        ∃ ent, alFind (tracked_send_text st key w).2.collector key = some ent ∧
          ent.response_data.isSome = true ∧ ent.error = none) ∧
    (∀ st key w req e, w.build = Except.ok req → w.dExec ≤ execTimeoutMs →
        w.execResult = Except.error e → e ≠ [] →
        ∃ ent, alFind (tracked_send_text st key w).2.collector key = some ent ∧
          ent.error = some e ∧ e ≠ [] ∧ ent.response_data = none) ∧
    (∀ st key w req, w.build = Except.ok req →
        ∀ ent, alFind (tracked_send st key w).2.collector key = some ent →
          ent.response_data = none ∨ ent.error = none) ∧
    (∀ st key w req, w.build = Except.ok req →
        ∀ ent, alFind (tracked_send_text st key w).2.collector key = some ent →
          ent.response_data = none ∨ ent.error = none) := by
  refine ⟨?_, ?_, ?_, ?_, ?_, ?_⟩
  · intro st key w req resp hb he
    rcases hd : w.dumpResult with m | d
    · rw [tracked_send_eq_dump_err st key w req resp m hb he hd]
      exact ⟨_, alFind_insert_update _ _ _ _, rfl, rfl⟩
    · rw [tracked_send_eq_ok st key w req resp d hb he hd]
      exact ⟨_, alFind_insert_update _ _ _ _, rfl, rfl⟩
  · intro st key w req e hb he hne
    rw [tracked_send_eq_exec_err st key w req e hb he]
    exact ⟨_, alFind_insert_update _ _ _ _, rfl, hne, rfl⟩
  · intro st key w req resp bodyB hb hde he hdr hr
    rcases hd : w.dumpResult with m | d
    · rw [tracked_send_text_eq_dump_err st key w req resp bodyB m hb hde he hdr hr hd]
      exact ⟨_, alFind_insert_update _ _ _ _, rfl, rfl⟩
    · rw [tracked_send_text_eq_ok st key w req resp bodyB d hb hde he hdr hr hd]
      exact ⟨_, alFind_insert_update _ _ _ _, rfl, rfl⟩
  · intro st key w req e hb hde he hne
    rw [tracked_send_text_eq_exec_err st key w req e hb hde he]
    exact ⟨_, alFind_insert_update _ _ _ _, rfl, hne, rfl⟩
  · intro st key w req hb ent hent
    rcases he : w.execResult with e | resp
    · rw [tracked_send_eq_exec_err st key w req e hb he] at hent
      rw [alFind_alUpdate_self, alFind_alInsert_self] at hent
      injection hent with h
      rw [← h]
      exact Or.inl rfl
    · rcases hd : w.dumpResult with m | d
      · rw [tracked_send_eq_dump_err st key w req resp m hb he hd] at hent
        rw [alFind_alUpdate_self, alFind_alInsert_self] at hent
        injection hent with h
        rw [← h]
        exact Or.inr rfl
      · rw [tracked_send_eq_ok st key w req resp d hb he hd] at hent
        rw [alFind_alUpdate_self, alFind_alInsert_self] at hent
        injection hent with h
        rw [← h]
        exact Or.inr rfl
  · intro st key w req hb ent hent
    by_cases hde : execTimeoutMs < w.dExec
    · rw [tracked_send_text_eq_exec_timeout st key w req hb hde] at hent
      rw [alFind_alInsert_self] at hent
      injection hent with h
      rw [← h]
      exact Or.inl rfl
    · have hde2 : w.dExec ≤ execTimeoutMs := by omega
      rcases he : w.execResult with e | resp
      · rw [tracked_send_text_eq_exec_err st key w req e hb hde2 he] at hent
        rw [alFind_alUpdate_self, alFind_alInsert_self] at hent
        injection hent with h
        rw [← h]
        exact Or.inl rfl
      · by_cases hdr : readTimeoutMs < w.dRead
        · rw [tracked_send_text_eq_read_timeout st key w req resp hb hde2 he hdr] at hent
          rw [alFind_alInsert_self] at hent
          injection hent with h
          rw [← h]
          exact Or.inl rfl
        · have hdr2 : w.dRead ≤ readTimeoutMs := by omega
          rcases hr : w.readResult with m | bodyB
          · rw [tracked_send_text_eq_read_err st key w req resp m hb hde2 he hdr2 hr] at hent
            rw [alFind_alInsert_self] at hent
            injection hent with h
            rw [← h]
            exact Or.inl rfl
          · rcases hd : w.dumpResult with m | d
            · rw [tracked_send_text_eq_dump_err st key w req resp bodyB m hb hde2 he hdr2 hr hd] at hent
              rw [alFind_alUpdate_self, alFind_alInsert_self] at hent
              injection hent with h
              rw [← h]
              exact Or.inr rfl
            · rw [tracked_send_text_eq_ok st key w req resp bodyB d hb hde2 he hdr2 hr hd] at hent
              rw [alFind_alUpdate_self, alFind_alInsert_self] at hent
              injection hent with h
              rw [← h]
              exact Or.inr rfl

/-- C1 counterexample: a concrete read-through run whose transport call
succeeds but whose body read then fails returns an error while leaving the
capture entry with `response_data` absent and `error` absent — so a send
whose transport call succeeded ends with no recorded response, and a
failed send ends with no recorded error, contradicting the claim as
stated. -/
theorem c1_capture_outcome_counterexample :
    exTWreadErr.execResult = Except.ok exResp ∧
    (tracked_send_text exSt exKey exTWreadErr).1 =
      Except.error (SendError.readBodyFailed (strBytes ['b', 'o', 'o', 'm'])) ∧
    (alFind (tracked_send_text exSt exKey exTWreadErr).2.collector exKey).map
        (fun ent => (ent.response_data, ent.error)) = some (none, none) :=
  ⟨rfl, rfl, rfl⟩

/-- Witness for the amended C1 at concrete runs of every case. -/
theorem c1_capture_outcome_witness :
    (∃ ent, alFind (tracked_send exSt exKey exSW).2.collector exKey = some ent ∧
        ent.response_data.isSome = true ∧ ent.error = none) ∧
    (∃ ent, alFind (tracked_send exSt exKey exSWerr).2.collector exKey = some ent ∧
        ent.error = some (strBytes ['b', 'a', 'd']) ∧ strBytes ['b', 'a', 'd'] ≠ [] ∧
        ent.response_data = none) ∧
    (∃ ent, alFind (tracked_send_text exSt exKey exTW).2.collector exKey = some ent ∧
        ent.response_data.isSome = true ∧ ent.error = none) ∧
    (∃ ent, alFind (tracked_send_text exSt exKey exTWexecErr).2.collector exKey = some ent ∧
        ent.error = some (strBytes ['b', 'a', 'd']) ∧ strBytes ['b', 'a', 'd'] ≠ [] ∧
        ent.response_data = none) ∧
    (((alFind (tracked_send exSt exKey exSW).2.collector exKey).getD
        defaultEntry).response_data = none ∨
      ((alFind (tracked_send exSt exKey exSW).2.collector exKey).getD
        defaultEntry).error = none) ∧
    (((alFind (tracked_send_text exSt exKey exTWreadErr).2.collector exKey).getD
        defaultEntry).response_data = none ∨
      ((alFind (tracked_send_text exSt exKey exTWreadErr).2.collector exKey).getD
        defaultEntry).error = none) :=
  ⟨c1_capture_outcome.1 exSt exKey exSW exReq exResp rfl rfl,
   c1_capture_outcome.2.1 exSt exKey exSWerr exReq (strBytes ['b', 'a', 'd']) rfl rfl
     (by decide),
   c1_capture_outcome.2.2.1 exSt exKey exTW exReq exResp [111, 107] rfl (by decide)
     rfl (by decide) rfl,
   c1_capture_outcome.2.2.2.1 exSt exKey exTWexecErr exReq (strBytes ['b', 'a', 'd'])
     rfl (by decide) rfl (by decide),
   c1_capture_outcome.2.2.2.2.1 exSt exKey exSW exReq rfl _ rfl,
   c1_capture_outcome.2.2.2.2.2 exSt exKey exTWreadErr exReq rfl _ rfl⟩

theorem truncate_spec (s t : RStr) (n : Nat) (h3 : 3 ≤ n)
    (h : truncate s n = some t) : t.length ≤ n ∧ t.length ≤ s.length := by
  unfold truncate at h
  by_cases hl : s.length > n
  · rw [if_pos hl] at h
    by_cases hb : isCharBoundary s (n - 3) = true
    · rw [if_pos hb] at h
      injection h with h
      subst h
      simp [ellipsis]
      omega
    · rw [if_neg hb] at h
      exact absurd h (by simp)
  · rw [if_neg hl] at h
    injection h with h
    subst h
    omega

mutual

theorem shortens_refl : ∀ a, shortens a a = true
  | Json.null => by simp [shortens]
  | Json.bool b => by simp [shortens]
  | Json.num n => by simp [shortens]
  | Json.str s => by simp [shortens]
  | Json.arr l => by rw [shortens]; exact shortensList_refl l
  | Json.obj m => by rw [shortens]; exact shortensObj_refl m

theorem shortensList_refl : ∀ l, shortensList l l = true
  | [] => by simp [shortensList]
  | x :: xs => by
      rw [shortensList]
      simp [shortens_refl x, shortensList_refl xs]

theorem shortensObj_refl : ∀ m, shortensObj m m = true
  | [] => by simp [shortensObj]
  | p :: xs => by
      rw [shortensObj]
      simp [shortens_refl p.2, shortensObj_refl xs]

end

theorem shortens_null_inv (b : Json) (h : shortens Json.null b = true) :
    b = Json.null := by
  cases b <;> simp_all [shortens]

theorem shortens_bool_inv (x : Bool) (b : Json) (h : shortens (Json.bool x) b = true) :
    b = Json.bool x := by
  cases b <;> simp_all [shortens]

theorem shortens_num_inv (x : Nat) (b : Json) (h : shortens (Json.num x) b = true) :
    b = Json.num x := by
  cases b <;> simp_all [shortens]

theorem shortens_str_inv (s : RStr) (b : Json) (h : shortens (Json.str s) b = true) :
    ∃ t, b = Json.str t ∧ t.length ≤ s.length := by
  cases b <;> simp_all [shortens]

theorem shortens_arr_inv (l : List Json) (b : Json)
    (h : shortens (Json.arr l) b = true) :
    ∃ l2, b = Json.arr l2 ∧ shortensList l l2 = true := by
  cases b <;> simp_all [shortens]

theorem shortens_obj_inv (m : List (RStr × Json)) (b : Json)
    (h : shortens (Json.obj m) b = true) :
    ∃ m2, b = Json.obj m2 ∧ shortensObj m m2 = true := by
  cases b <;> simp_all [shortens]

theorem shortens_str_inv2 (a : Json) (t : RStr) (h : shortens a (Json.str t) = true) :
    ∃ s, a = Json.str s ∧ t.length ≤ s.length := by
  cases a <;> simp_all [shortens]

theorem shortens_arr_inv2 (a : Json) (l2 : List Json)
    (h : shortens a (Json.arr l2) = true) :
    ∃ l, a = Json.arr l ∧ shortensList l l2 = true := by
  cases a <;> simp_all [shortens]

theorem shortens_obj_inv2 (a : Json) (m2 : List (RStr × Json))
    (h : shortens a (Json.obj m2) = true) :
    ∃ m, a = Json.obj m ∧ shortensObj m m2 = true := by
  cases a <;> simp_all [shortens]

theorem shortensList_nil_inv (b : List Json) (h : shortensList [] b = true) :
    b = [] := by
  cases b <;> simp_all [shortensList]

theorem shortensList_cons_inv (x : Json) (xs b : List Json)
    (h : shortensList (x :: xs) b = true) :
    ∃ y ys, b = y :: ys ∧ shortens x y = true ∧ shortensList xs ys = true := by
  cases b with
  | nil => simp_all [shortensList]
  | cons y ys =>
    rw [shortensList] at h
    simp at h
    exact ⟨y, ys, rfl, h.1, h.2⟩

theorem shortensObj_nil_inv (b : List (RStr × Json)) (h : shortensObj [] b = true) :
    b = [] := by
  cases b <;> simp_all [shortensObj]

theorem shortensObj_cons_inv (p : RStr × Json) (xs b : List (RStr × Json))
    (h : shortensObj (p :: xs) b = true) :
    ∃ q ys, b = q :: ys ∧ p.1 = q.1 ∧ shortens p.2 q.2 = true ∧
      shortensObj xs ys = true := by
  cases b with
  | nil => simp_all [shortensObj]
  | cons q ys =>
    rw [shortensObj] at h
    simp at h
    exact ⟨q, ys, rfl, h.1.1, h.1.2, h.2⟩

mutual

theorem shortens_trans : ∀ a b c, shortens a b = true → shortens b c = true →
    shortens a c = true
  | Json.null, b, c, hab, hbc => by
      rw [shortens_null_inv b hab] at hbc
      rw [shortens_null_inv c hbc]
      simp [shortens]
  | Json.bool x, b, c, hab, hbc => by
      rw [shortens_bool_inv x b hab] at hbc
      rw [shortens_bool_inv x c hbc]
      simp [shortens]
  | Json.num x, b, c, hab, hbc => by
      rw [shortens_num_inv x b hab] at hbc
      rw [shortens_num_inv x c hbc]
      simp [shortens]
  | Json.str s, b, c, hab, hbc => by
      obtain ⟨t, rfl, hts⟩ := shortens_str_inv s b hab
      obtain ⟨u, rfl, hut⟩ := shortens_str_inv t c hbc
      rw [shortens]
      simp
      omega
  | Json.arr l, b, c, hab, hbc => by
      obtain ⟨l2, rfl, h2⟩ := shortens_arr_inv l b hab
      obtain ⟨l3, rfl, h3⟩ := shortens_arr_inv l2 c hbc
      rw [shortens]
      exact shortensList_trans l l2 l3 h2 h3
  | Json.obj m, b, c, hab, hbc => by
      obtain ⟨m2, rfl, h2⟩ := shortens_obj_inv m b hab
      obtain ⟨m3, rfl, h3⟩ := shortens_obj_inv m2 c hbc
      rw [shortens]
      exact shortensObj_trans m m2 m3 h2 h3
termination_by structural a _ _ _ _ => a

theorem shortensList_trans : ∀ a b c, shortensList a b = true →
    shortensList b c = true → shortensList a c = true
  | [], b, c, hab, hbc => by
      rw [shortensList_nil_inv b hab] at hbc
      rw [shortensList_nil_inv c hbc]
      simp [shortensList]
  | x :: xs, b, c, hab, hbc => by
      obtain ⟨y, ys, rfl, hxy, hxys⟩ := shortensList_cons_inv x xs b hab
      obtain ⟨z, zs, rfl, hyz, hyzs⟩ := shortensList_cons_inv y ys c hbc
      rw [shortensList]
      simp [shortens_trans x y z hxy hyz, shortensList_trans xs ys zs hxys hyzs]
termination_by structural a _ _ _ _ => a

theorem shortensObj_trans : ∀ a b c, shortensObj a b = true →
    shortensObj b c = true → shortensObj a c = true
  | [], b, c, hab, hbc => by
      rw [shortensObj_nil_inv b hab] at hbc
      rw [shortensObj_nil_inv c hbc]
      simp [shortensObj]
  | p :: xs, b, c, hab, hbc => by
      obtain ⟨q, ys, rfl, hk1, hv1, hr1⟩ := shortensObj_cons_inv p xs b hab
      obtain ⟨r, zs, rfl, hk2, hv2, hr2⟩ := shortensObj_cons_inv q ys c hbc
      rw [shortensObj]
      simp [hk1.trans hk2, shortens_trans p.2 q.2 r.2 hv1 hv2,
        shortensObj_trans xs ys zs hr1 hr2]
termination_by structural a _ _ _ _ => a

end

theorem truncStrVals_spec : ∀ (h h2 : List (RStr × Json)) (n : Nat), 3 ≤ n →
    truncStrVals h n = some h2 →
    shortensObj h h2 = true ∧ strValsLe h2 n = true := by
  intro h
  induction h with
  | nil =>
    intro h2 n h3 he
    simp [truncStrVals] at he
    subst he
    simp [shortensObj, strValsLe]
  | cons p rest ih =>
    intro h2 n h3 he
    obtain ⟨k, v⟩ := p
    cases v with
    | str s =>
      simp only [truncStrVals] at he
      rcases ht : truncate s n with _ | s2 <;> rw [ht] at he
      · simp at he
      · rcases hr : truncStrVals rest n with _ | r <;> rw [hr] at he
        · simp at he
        · simp at he
          subst he
          obtain ⟨hso, hsb⟩ := ih r n h3 hr
          obtain ⟨hlen, hles⟩ := truncate_spec s s2 n h3 ht
          constructor
          · rw [shortensObj]
            simp [hso]
            rw [shortens]
            simp
            exact hles
          · simp [strValsLe] at hsb ⊢
            exact ⟨hlen, hsb⟩
    | null =>
      simp only [truncStrVals] at he
      rcases hr : truncStrVals rest n with _ | r <;> rw [hr] at he
      · simp at he
      · simp at he
        subst he
        obtain ⟨hso, hsb⟩ := ih r n h3 hr
        constructor
        · rw [shortensObj]
          simp [hso, shortens_refl]
        · simp [strValsLe] at hsb ⊢
          exact hsb
    | bool x =>
      simp only [truncStrVals] at he
      rcases hr : truncStrVals rest n with _ | r <;> rw [hr] at he
      · simp at he
      · simp at he
        subst he
        obtain ⟨hso, hsb⟩ := ih r n h3 hr
        constructor
        · rw [shortensObj]
          simp [hso, shortens_refl]
        · simp [strValsLe] at hsb ⊢
          exact hsb
    | num x =>
      simp only [truncStrVals] at he
      rcases hr : truncStrVals rest n with _ | r <;> rw [hr] at he
      · simp at he
      · simp at he
        subst he
        obtain ⟨hso, hsb⟩ := ih r n h3 hr
        constructor
        · rw [shortensObj]
          simp [hso, shortens_refl]
        · simp [strValsLe] at hsb ⊢
          exact hsb
    | arr l =>
      simp only [truncStrVals] at he
      rcases hr : truncStrVals rest n with _ | r <;> rw [hr] at he
      · simp at he
      · simp at he
        subst he
        obtain ⟨hso, hsb⟩ := ih r n h3 hr
        constructor
        · rw [shortensObj]
          simp [hso, shortens_refl]
        · simp [strValsLe] at hsb ⊢
          exact hsb
    | obj mm =>
      simp only [truncStrVals] at he
      rcases hr : truncStrVals rest n with _ | r <;> rw [hr] at he
      · simp at he
      · simp at he
        subst he
        obtain ⟨hso, hsb⟩ := ih r n h3 hr
        constructor
        · rw [shortensObj]
          simp [hso, shortens_refl]
        · simp [strValsLe] at hsb ⊢
          exact hsb

theorem truncStrItems_spec : ∀ (l l2 : List Json) (n : Nat), 3 ≤ n →
    truncStrItems l n = some l2 →
    shortensList l l2 = true ∧ strItemsLe l2 n = true := by
  intro l
  induction l with
  | nil =>
    intro l2 n h3 he
    simp [truncStrItems] at he
    subst he
    simp [shortensList, strItemsLe]
  | cons v rest ih =>
    intro l2 n h3 he
    cases v with
    | str s =>
      simp only [truncStrItems] at he
      rcases ht : truncate s n with _ | s2 <;> rw [ht] at he
      · simp at he
      · rcases hr : truncStrItems rest n with _ | r <;> rw [hr] at he
        · simp at he
        · simp at he
          subst he
          obtain ⟨hso, hsb⟩ := ih r n h3 hr
          obtain ⟨hlen, hles⟩ := truncate_spec s s2 n h3 ht
          constructor
          · rw [shortensList]
            simp [hso]
            rw [shortens]
            simp
            exact hles
          · simp [strItemsLe] at hsb ⊢
            exact ⟨hlen, hsb⟩
    | null =>
      simp only [truncStrItems] at he
      rcases hr : truncStrItems rest n with _ | r <;> rw [hr] at he
      · simp at he
      · simp at he
        subst he
        obtain ⟨hso, hsb⟩ := ih r n h3 hr
        constructor
        · rw [shortensList]
          simp [hso, shortens_refl]
        · simp [strItemsLe] at hsb ⊢
          exact hsb
    | bool x =>
      simp only [truncStrItems] at he
      rcases hr : truncStrItems rest n with _ | r <;> rw [hr] at he
      · simp at he
      · simp at he
        subst he
        obtain ⟨hso, hsb⟩ := ih r n h3 hr
        constructor
        · rw [shortensList]
          simp [hso, shortens_refl]
        · simp [strItemsLe] at hsb ⊢
          exact hsb
    | num x =>
      simp only [truncStrItems] at he
      rcases hr : truncStrItems rest n with _ | r <;> rw [hr] at he
      · simp at he
      · simp at he
        subst he
        obtain ⟨hso, hsb⟩ := ih r n h3 hr
        constructor
        · rw [shortensList]
          simp [hso, shortens_refl]
        · simp [strItemsLe] at hsb ⊢
          exact hsb
    | arr l0 =>
      simp only [truncStrItems] at he
      rcases hr : truncStrItems rest n with _ | r <;> rw [hr] at he
      · simp at he
      · simp at he
        subst he
        obtain ⟨hso, hsb⟩ := ih r n h3 hr
        constructor
        · rw [shortensList]
          simp [hso, shortens_refl]
        · simp [strItemsLe] at hsb ⊢
          exact hsb
    | obj mm =>
      simp only [truncStrItems] at he
      rcases hr : truncStrItems rest n with _ | r <;> rw [hr] at he
      · simp at he
      · simp at he
        subst he
        obtain ⟨hso, hsb⟩ := ih r n h3 hr
        constructor
        · rw [shortensList]
          simp [hso, shortens_refl]
        · simp [strItemsLe] at hsb ⊢
          exact hsb

theorem shortensObj_alUpdate (m : List (RStr × Json)) (k : RStr) (f : Json → Json)
    (hf : ∀ v, alFind m k = some v → shortens v (f v) = true) :
    shortensObj m (alUpdate m k f) = true := by
  induction m with
  | nil => simp [alUpdate, shortensObj]
  | cons p rest ih =>
    by_cases hp : p.1 = k
    · rw [alUpdate, if_pos hp, shortensObj]
      have h1 : shortens p.2 (f p.2) = true := hf p.2 (by rw [alFind, if_pos hp])
      simp [h1, shortensObj_refl rest]
    · rw [alUpdate, if_neg hp, shortensObj]
      have h2 := ih (fun v hv => hf v (by rw [alFind, if_neg hp]; exact hv))
      simp [shortens_refl p.2, h2]

theorem shortensObj_find : ∀ (m m2 : List (RStr × Json)) (k : RStr),
    shortensObj m m2 = true →
    (alFind m k = none ∧ alFind m2 k = none) ∨
    (∃ v v2, alFind m k = some v ∧ alFind m2 k = some v2 ∧ shortens v v2 = true) := by
  intro m
  induction m with
  | nil =>
    intro m2 k hs
    rw [shortensObj_nil_inv m2 hs]
    exact Or.inl ⟨rfl, rfl⟩
  | cons p rest ih =>
    intro m2 k hs
    obtain ⟨q, ys, rfl, hk, hv, hr⟩ := shortensObj_cons_inv p rest m2 hs
    by_cases hpk : p.1 = k
    · refine Or.inr ⟨p.2, q.2, ?_, ?_, hv⟩
      · rw [alFind, if_pos hpk]
      · rw [alFind, if_pos (by rw [← hk]; exact hpk)]
    · rcases ih ys k hr with ⟨h1, h2⟩ | ⟨v, v2, h1, h2, h3⟩
      · refine Or.inl ⟨?_, ?_⟩
        · rw [alFind, if_neg hpk]
          exact h1
        · rw [alFind, if_neg (by rw [← hk]; exact hpk)]
          exact h2
      · refine Or.inr ⟨v, v2, ?_, ?_, h3⟩
        · rw [alFind, if_neg hpk]
          exact h1
        · rw [alFind, if_neg (by rw [← hk]; exact hpk)]
          exact h2

theorem strValsLe_of_shortensObj : ∀ (h h2 : List (RStr × Json)) (n : Nat),
    shortensObj h h2 = true → strValsLe h n = true → strValsLe h2 n = true := by
  intro h
  induction h with
  | nil =>
    intro h2 n hs _
    rw [shortensObj_nil_inv h2 hs]
    simp [strValsLe]
  | cons p rest ih =>
    intro h2 n hs hb
    obtain ⟨q, ys, rfl, hk, hv, hr⟩ := shortensObj_cons_inv p rest h2 hs
    simp [strValsLe] at hb ⊢
    refine ⟨?_, ?_⟩
    · cases hq : q.2 with
      | str t =>
        rw [hq] at hv
        obtain ⟨s, hps, hts⟩ := shortens_str_inv2 p.2 t hv
        have hb1 := hb.1
        rw [hps] at hb1
        simp at hb1
        have hn : t.length ≤ n := by omega
        simp [hn]
      | null => simp
      | bool x => simp
      | num x => simp
      | arr l0 => simp
      | obj mm => simp
    · have := ih ys n hr (by simp [strValsLe]; exact hb.2)
      simp [strValsLe] at this
      exact this

theorem strItemsLe_of_shortensList : ∀ (l l2 : List Json) (n : Nat),
    shortensList l l2 = true → strItemsLe l n = true → strItemsLe l2 n = true := by
  intro l
  induction l with
  | nil =>
    intro l2 n hs _
    rw [shortensList_nil_inv l2 hs]
    simp [strItemsLe]
  | cons v rest ih =>
    intro l2 n hs hb
    obtain ⟨w, ys, rfl, hv, hr⟩ := shortensList_cons_inv v rest l2 hs
    simp [strItemsLe] at hb ⊢
    refine ⟨?_, ?_⟩
    · cases hw : w with
      | str t =>
        rw [hw] at hv
        obtain ⟨s, hps, hts⟩ := shortens_str_inv2 v t hv
        have hb1 := hb.1
        rw [hps] at hb1
        simp at hb1
        have hn : t.length ≤ n := by omega
        simp [hn]
      | null => simp
      | bool x => simp
      | num x => simp
      | arr l0 => simp
      | obj mm => simp
    · have := ih ys n hr (by simp [strItemsLe]; exact hb.2)
      simp [strItemsLe] at this
      exact this

theorem headersPass_spec (m m2 : List (RStr × Json)) (he : headersPass m = some m2) :
    shortensObj m m2 = true ∧
    (∀ k, k ≠ kHeaders → alFind m2 k = alFind m k) ∧
    ((∃ h h2, alFind m kHeaders = some (Json.obj h) ∧ truncStrVals h 50 = some h2 ∧
        alFind m2 kHeaders = some (Json.obj h2)) ∨
      ((∀ h, alFind m kHeaders ≠ some (Json.obj h)) ∧
        alFind m2 kHeaders = alFind m kHeaders)) := by
  unfold headersPass at he
  rcases hf : alFind m kHeaders with _ | v <;> rw [hf] at he
  · simp at he
    subst he
    exact ⟨shortensObj_refl m, fun _ _ => rfl, Or.inr ⟨by simp, hf⟩⟩
  · cases v with
    | obj h =>
      replace he : ((truncStrVals h 50).bind fun h2 =>
          some (alUpdate m kHeaders fun _ => Json.obj h2)) = some m2 := he
      rcases ht : truncStrVals h 50 with _ | h2 <;> rw [ht] at he
      · simp at he
      · simp at he
        subst he
        refine ⟨?_, ?_, Or.inl ⟨h, h2, rfl, ht, ?_⟩⟩
        · apply shortensObj_alUpdate
          intro v hv
          rw [hf] at hv
          injection hv with hv
          subst hv
          rw [shortens]
          exact (truncStrVals_spec h h2 50 (by omega) ht).1
        · intro k hk
          exact alFind_alUpdate_ne m kHeaders k _ hk
        · rw [alFind_alUpdate_self, hf]
          rfl
    | null =>
      simp at he
      subst he
      exact ⟨shortensObj_refl m, fun _ _ => rfl, Or.inr ⟨by simp, hf⟩⟩
    | bool x =>
      simp at he
      subst he
      exact ⟨shortensObj_refl m, fun _ _ => rfl, Or.inr ⟨by simp, hf⟩⟩
    | num x =>
      simp at he
      subst he
      exact ⟨shortensObj_refl m, fun _ _ => rfl, Or.inr ⟨by simp, hf⟩⟩
    | str s =>
      simp at he
      subst he
      exact ⟨shortensObj_refl m, fun _ _ => rfl, Or.inr ⟨by simp, hf⟩⟩
    | arr l =>
      simp at he
      subst he
      exact ⟨shortensObj_refl m, fun _ _ => rfl, Or.inr ⟨by simp, hf⟩⟩

theorem cookiesPass_spec (m m2 : List (RStr × Json)) (he : cookiesPass m = some m2) :
    shortensObj m m2 = true ∧
    (∀ k, k ≠ kCookies → alFind m2 k = alFind m k) ∧
    ((∃ s s2, alFind m kCookies = some (Json.str s) ∧ truncate s 500 = some s2 ∧
        alFind m2 kCookies = some (Json.str s2)) ∨
      ((∀ s, alFind m kCookies ≠ some (Json.str s)) ∧
        alFind m2 kCookies = alFind m kCookies)) := by
  unfold cookiesPass at he
  rcases hf : alFind m kCookies with _ | v <;> rw [hf] at he
  · simp at he
    subst he
    exact ⟨shortensObj_refl m, fun _ _ => rfl, Or.inr ⟨by simp, hf⟩⟩
  · cases v with
    | str s =>
      replace he : ((truncate s 500).bind fun s2 =>
          some (alUpdate m kCookies fun _ => Json.str s2)) = some m2 := he
      rcases ht : truncate s 500 with _ | s2 <;> rw [ht] at he
      · simp at he
      · simp at he
        subst he
        refine ⟨?_, ?_, Or.inl ⟨s, s2, rfl, ht, ?_⟩⟩
        · apply shortensObj_alUpdate
          intro v hv
          rw [hf] at hv
          injection hv with hv
          subst hv
          rw [shortens]
          simp
          exact (truncate_spec s s2 500 (by omega) ht).2
        · intro k hk
          exact alFind_alUpdate_ne m kCookies k _ hk
        · rw [alFind_alUpdate_self, hf]
          rfl
    | null =>
      simp at he
      subst he
      exact ⟨shortensObj_refl m, fun _ _ => rfl, Or.inr ⟨by simp, hf⟩⟩
    | bool x =>
      simp at he
      subst he
      exact ⟨shortensObj_refl m, fun _ _ => rfl, Or.inr ⟨by simp, hf⟩⟩
    | num x =>
      simp at he
      subst he
      exact ⟨shortensObj_refl m, fun _ _ => rfl, Or.inr ⟨by simp, hf⟩⟩
    | arr l =>
      simp at he
      subst he
      exact ⟨shortensObj_refl m, fun _ _ => rfl, Or.inr ⟨by simp, hf⟩⟩
    | obj h =>
      simp at he
      subst he
      exact ⟨shortensObj_refl m, fun _ _ => rfl, Or.inr ⟨by simp, hf⟩⟩

theorem setCookiesPass_spec (m m2 : List (RStr × Json))
    (he : setCookiesPass m = some m2) :
    shortensObj m m2 = true ∧
    (∀ k, k ≠ kSetCookies → alFind m2 k = alFind m k) ∧
    ((∃ l l2, alFind m kSetCookies = some (Json.arr l) ∧ truncStrItems l 50 = some l2 ∧
        alFind m2 kSetCookies = some (Json.arr l2)) ∨
      ((∀ l, alFind m kSetCookies ≠ some (Json.arr l)) ∧
        alFind m2 kSetCookies = alFind m kSetCookies)) := by
  unfold setCookiesPass at he
  rcases hf : alFind m kSetCookies with _ | v <;> rw [hf] at he
  · simp at he
    subst he
    exact ⟨shortensObj_refl m, fun _ _ => rfl, Or.inr ⟨by simp, hf⟩⟩
  · cases v with
    | arr l =>
      replace he : ((truncStrItems l 50).bind fun l2 =>
          some (alUpdate m kSetCookies fun _ => Json.arr l2)) = some m2 := he
      rcases ht : truncStrItems l 50 with _ | l2 <;> rw [ht] at he
      · simp at he
      · simp at he
        subst he
        refine ⟨?_, ?_, Or.inl ⟨l, l2, rfl, ht, ?_⟩⟩
        · apply shortensObj_alUpdate
          intro v hv
          rw [hf] at hv
          injection hv with hv
          subst hv
          rw [shortens]
          exact (truncStrItems_spec l l2 50 (by omega) ht).1
        · intro k hk
          exact alFind_alUpdate_ne m kSetCookies k _ hk
        · rw [alFind_alUpdate_self, hf]
          rfl
    | null =>
      simp at he
      subst he
      exact ⟨shortensObj_refl m, fun _ _ => rfl, Or.inr ⟨by simp, hf⟩⟩
    | bool x =>
      simp at he
      subst he
      exact ⟨shortensObj_refl m, fun _ _ => rfl, Or.inr ⟨by simp, hf⟩⟩
    | num x =>
      simp at he
      subst he
      exact ⟨shortensObj_refl m, fun _ _ => rfl, Or.inr ⟨by simp, hf⟩⟩
    | str s =>
      simp at he
      subst he
      exact ⟨shortensObj_refl m, fun _ _ => rfl, Or.inr ⟨by simp, hf⟩⟩
    | obj h =>
      simp at he
      subst he
      exact ⟨shortensObj_refl m, fun _ _ => rfl, Or.inr ⟨by simp, hf⟩⟩

theorem passBounds_of_shortensObj (m m2 : List (RStr × Json))
    (hs : shortensObj m m2 = true) (hb : passBounds m = true) :
    passBounds m2 = true := by
  unfold passBounds at hb ⊢
  simp only [Bool.and_eq_true] at hb ⊢
  obtain ⟨⟨hH, hC⟩, hS⟩ := hb
  refine ⟨⟨?_, ?_⟩, ?_⟩
  · rcases hf2 : alFind m2 kHeaders with _ | v2
    · simp
    · cases v2 with
      | obj hh2 =>
        rcases shortensObj_find m m2 kHeaders hs with ⟨hn1, hn2⟩ | ⟨v, v2x, h1, h2x, hvv⟩
        · rw [hf2] at hn2
          exact absurd hn2 (by simp)
        · rw [hf2] at h2x
          injection h2x with h2x
          subst h2x
          obtain ⟨hh, hph, hsh⟩ := shortens_obj_inv2 v hh2 hvv
          rw [hph] at h1
          rw [h1] at hH
          simp at hH
          exact strValsLe_of_shortensObj hh hh2 50 hsh hH
      | null => simp
      | bool x => simp
      | num x => simp
      | str sx => simp
      | arr lx => simp
  · rcases hf2 : alFind m2 kCookies with _ | v2
    · simp
    · cases v2 with
      | str t =>
        rcases shortensObj_find m m2 kCookies hs with ⟨hn1, hn2⟩ | ⟨v, v2x, h1, h2x, hvv⟩
        · rw [hf2] at hn2
          exact absurd hn2 (by simp)
        · rw [hf2] at h2x
          injection h2x with h2x
          subst h2x
          obtain ⟨sv, hps, hts⟩ := shortens_str_inv2 v t hvv
          rw [hps] at h1
          rw [h1] at hC
          simp at hC
          simp
          omega
      | null => simp
      | bool x => simp
      | num x => simp
      | arr lx => simp
      | obj hx => simp
  · rcases hf2 : alFind m2 kSetCookies with _ | v2
    · simp
    · cases v2 with
      | arr lt =>
        rcases shortensObj_find m m2 kSetCookies hs with ⟨hn1, hn2⟩ | ⟨v, v2x, h1, h2x, hvv⟩
        · rw [hf2] at hn2
          exact absurd hn2 (by simp)
        · rw [hf2] at h2x
          injection h2x with h2x
          subst h2x
          obtain ⟨lv, hps, hls⟩ := shortens_arr_inv2 v lt hvv
          rw [hps] at h1
          rw [h1] at hS
          simp at hS
          exact strItemsLe_of_shortensList lv lt 50 hls hS
      | null => simp
      | bool x => simp
      | num x => simp
      | str sx => simp
      | obj hx => simp

mutual

theorem truncBound_of_shortens : ∀ a b, shortens a b = true → truncBound a = true →
    truncBound b = true
  | Json.null, b, hs, _ => by
      rw [shortens_null_inv b hs]
      simp [truncBound]
  | Json.bool x, b, hs, _ => by
      rw [shortens_bool_inv x b hs]
      simp [truncBound]
  | Json.num x, b, hs, _ => by
      rw [shortens_num_inv x b hs]
      simp [truncBound]
  | Json.str s, b, hs, _ => by
      obtain ⟨t, rfl, _⟩ := shortens_str_inv s b hs
      simp [truncBound]
  | Json.arr l, b, hs, hb => by
      obtain ⟨l2, rfl, h2⟩ := shortens_arr_inv l b hs
      rw [truncBound] at hb ⊢
      exact truncBoundList_of_shortensList l l2 h2 hb
  | Json.obj m, b, hs, hb => by
      obtain ⟨m2, rfl, h2⟩ := shortens_obj_inv m b hs
      rw [truncBound] at hb ⊢
      simp only [Bool.and_eq_true] at hb ⊢
      exact ⟨truncBoundObj_of_shortensObj m m2 h2 hb.1,
        passBounds_of_shortensObj m m2 h2 hb.2⟩
termination_by structural a _ _ _ => a

theorem truncBoundList_of_shortensList : ∀ l l2, shortensList l l2 = true →
    truncBoundList l = true → truncBoundList l2 = true
  | [], l2, hs, _ => by
      rw [shortensList_nil_inv l2 hs]
      simp [truncBoundList]
  | x :: xs, l2, hs, hb => by
      obtain ⟨y, ys, rfl, hxy, hr⟩ := shortensList_cons_inv x xs l2 hs
      rw [truncBoundList] at hb ⊢
      simp only [Bool.and_eq_true] at hb ⊢
      exact ⟨truncBound_of_shortens x y hxy hb.1,
        truncBoundList_of_shortensList xs ys hr hb.2⟩
termination_by structural l _ _ _ => l

theorem truncBoundObj_of_shortensObj : ∀ m m2, shortensObj m m2 = true →
    truncBoundObj m = true → truncBoundObj m2 = true
  | [], m2, hs, _ => by
      rw [shortensObj_nil_inv m2 hs]
      simp [truncBoundObj]
  | (k, v) :: xs, m2, hs, hb => by
      obtain ⟨q, ys, rfl, hk, hv, hr⟩ := shortensObj_cons_inv (k, v) xs m2 hs
      rw [truncBoundObj] at hb ⊢
      simp only [Bool.and_eq_true] at hb ⊢
      exact ⟨truncBound_of_shortens v q.2 hv hb.1,
        truncBoundObj_of_shortensObj xs ys hr hb.2⟩
termination_by structural m _ _ _ => m

end

theorem passes_passBounds (m1 m2 m3 m4 : List (RStr × Json))
    (h2 : headersPass m1 = some m2) (h3 : cookiesPass m2 = some m3)
    (h4 : setCookiesPass m3 = some m4) : passBounds m4 = true := by
  obtain ⟨_, hne2, hc2⟩ := headersPass_spec m1 m2 h2
  obtain ⟨_, hne3, hc3⟩ := cookiesPass_spec m2 m3 h3
  obtain ⟨_, hne4, hc4⟩ := setCookiesPass_spec m3 m4 h4
  unfold passBounds
  simp only [Bool.and_eq_true]
  refine ⟨⟨?_, ?_⟩, ?_⟩
  · have e34 : alFind m4 kHeaders = alFind m3 kHeaders := hne4 kHeaders (by decide)
    have e23 : alFind m3 kHeaders = alFind m2 kHeaders := hne3 kHeaders (by decide)
    rcases hc2 with ⟨h, hh2, hfm1, ht, hfm2⟩ | ⟨hno, heq⟩
    · rw [e34, e23, hfm2]
      simpa using (truncStrVals_spec h hh2 50 (by omega) ht).2
    · rw [e34, e23, heq]
      rcases hv : alFind m1 kHeaders with _ | v
      · simp
      · cases v with
        | obj h => exact absurd hv (hno h)
        | null => simp
        | bool x => simp
        | num x => simp
        | str sx => simp
        | arr lx => simp
  · have e34 : alFind m4 kCookies = alFind m3 kCookies := hne4 kCookies (by decide)
    rcases hc3 with ⟨s, s2, hfm2, ht, hfm3⟩ | ⟨hno, heq⟩
    · rw [e34, hfm3]
      have hlen := (truncate_spec s s2 500 (by omega) ht).1
      simp [hlen]
    · rw [e34, heq]
      rcases hv : alFind m2 kCookies with _ | v
      · simp
      · cases v with
        | str sx => exact absurd hv (hno sx)
        | null => simp
        | bool x => simp
        | num x => simp
        | arr lx => simp
        | obj hx => simp
  · rcases hc4 with ⟨l, l2, hfm3, ht, hfm4⟩ | ⟨hno, heq⟩
    · rw [hfm4]
      simpa using (truncStrItems_spec l l2 50 (by omega) ht).2
    · rw [heq]
      rcases hv : alFind m3 kSetCookies with _ | v
      · simp
      · cases v with
        | arr lx => exact absurd hv (hno lx)
        | null => simp
        | bool x => simp
        | num x => simp
        | str sx => simp
        | obj hx => simp

mutual

theorem truncate_fields_shortens : ∀ j j2, truncate_fields j = some j2 →
    shortens j j2 = true
  | Json.null, j2, h => by
      simp [truncate_fields] at h
      subst h
      simp [shortens]
  | Json.bool x, j2, h => by
      simp [truncate_fields] at h
      subst h
      simp [shortens]
  | Json.num x, j2, h => by
      simp [truncate_fields] at h
      subst h
      simp [shortens]
  | Json.str s, j2, h => by
      simp [truncate_fields] at h
      subst h
      simp [shortens]
  | Json.arr l, j2, h => by
      replace h : ((truncate_fields_list l).bind fun l2 =>
          some (Json.arr l2)) = some j2 := h
      rcases hl : truncate_fields_list l with _ | l2 <;> rw [hl] at h
      · simp at h
      · simp at h
        subst h
        rw [shortens]
        exact truncate_fields_list_shortens l l2 hl
  | Json.obj m, j2, h => by
      replace h : ((truncate_fields_obj m).bind fun m1 =>
          (headersPass m1).bind fun m2 =>
          (cookiesPass m2).bind fun m3 =>
          (setCookiesPass m3).bind fun m4 =>
          some (Json.obj m4)) = some j2 := h
      rcases h1 : truncate_fields_obj m with _ | m1 <;> rw [h1] at h <;>
        simp only [Option.some_bind, Option.none_bind] at h
      · simp at h
      · rcases h2 : headersPass m1 with _ | m2 <;> rw [h2] at h <;>
          simp only [Option.some_bind, Option.none_bind] at h
        · simp at h
        · rcases h3 : cookiesPass m2 with _ | m3 <;> rw [h3] at h <;>
            simp only [Option.some_bind, Option.none_bind] at h
          · simp at h
          · rcases h4 : setCookiesPass m3 with _ | m4 <;> rw [h4] at h <;>
              simp only [Option.some_bind, Option.none_bind] at h
            · simp at h
            · simp at h
              subst h
              rw [shortens]
              have s1 := truncate_fields_obj_shortens m m1 h1
              have s2 := (headersPass_spec m1 m2 h2).1
              have s3 := (cookiesPass_spec m2 m3 h3).1
              have s4 := (setCookiesPass_spec m3 m4 h4).1
              exact shortensObj_trans m m1 m4 s1
                (shortensObj_trans m1 m2 m4 s2 (shortensObj_trans m2 m3 m4 s3 s4))
termination_by structural j _ _ => j

theorem truncate_fields_obj_shortens : ∀ m m2, truncate_fields_obj m = some m2 →
    shortensObj m m2 = true
  | [], m2, h => by
      simp [truncate_fields_obj] at h
      subst h
      simp [shortensObj]
  | (k, v) :: rest, m2, h => by
      replace h : ((truncate_fields v).bind fun v2 =>
          (truncate_fields_obj rest).bind fun r =>
          some ((k, v2) :: r)) = some m2 := h
      rcases hv : truncate_fields v with _ | v2 <;> rw [hv] at h
      · simp at h
      · rcases hr : truncate_fields_obj rest with _ | r <;> rw [hr] at h
        · simp at h
        · simp at h
          subst h
          rw [shortensObj]
          simp [truncate_fields_shortens v v2 hv,
            truncate_fields_obj_shortens rest r hr]
termination_by structural m _ _ => m

theorem truncate_fields_list_shortens : ∀ l l2, truncate_fields_list l = some l2 →
    shortensList l l2 = true
  | [], l2, h => by
      simp [truncate_fields_list] at h
      subst h
      simp [shortensList]
  | v :: rest, l2, h => by
      replace h : ((truncate_fields v).bind fun v2 =>
          (truncate_fields_list rest).bind fun r =>
          some (v2 :: r)) = some l2 := h
      rcases hv : truncate_fields v with _ | v2 <;> rw [hv] at h
      · simp at h
      · rcases hr : truncate_fields_list rest with _ | r <;> rw [hr] at h
        · simp at h
        · simp at h
          subst h
          rw [shortensList]
          simp [truncate_fields_shortens v v2 hv,
            truncate_fields_list_shortens rest r hr]
termination_by structural l _ _ => l

end

mutual

theorem truncate_fields_bound : ∀ j j2, truncate_fields j = some j2 →
    truncBound j2 = true
  | Json.null, j2, h => by
      simp [truncate_fields] at h
      subst h
      simp [truncBound]
  | Json.bool x, j2, h => by
      simp [truncate_fields] at h
      subst h
      simp [truncBound]
  | Json.num x, j2, h => by
      simp [truncate_fields] at h
      subst h
      simp [truncBound]
  | Json.str s, j2, h => by
      simp [truncate_fields] at h
      subst h
      simp [truncBound]
  | Json.arr l, j2, h => by
      replace h : ((truncate_fields_list l).bind fun l2 =>
          some (Json.arr l2)) = some j2 := h
      rcases hl : truncate_fields_list l with _ | l2 <;> rw [hl] at h
      · simp at h
      · simp at h
        subst h
        rw [truncBound]
        exact truncate_fields_list_bound l l2 hl
  | Json.obj m, j2, h => by
      replace h : ((truncate_fields_obj m).bind fun m1 =>
          (headersPass m1).bind fun m2 =>
          (cookiesPass m2).bind fun m3 =>
          (setCookiesPass m3).bind fun m4 =>
          some (Json.obj m4)) = some j2 := h
      rcases h1 : truncate_fields_obj m with _ | m1 <;> rw [h1] at h <;>
        simp only [Option.some_bind, Option.none_bind] at h
      · simp at h
      · rcases h2 : headersPass m1 with _ | m2 <;> rw [h2] at h <;>
          simp only [Option.some_bind, Option.none_bind] at h
        · simp at h
        · rcases h3 : cookiesPass m2 with _ | m3 <;> rw [h3] at h <;>
            simp only [Option.some_bind, Option.none_bind] at h
          · simp at h
          · rcases h4 : setCookiesPass m3 with _ | m4 <;> rw [h4] at h <;>
              simp only [Option.some_bind, Option.none_bind] at h
            · simp at h
            · simp at h
              subst h
              rw [truncBound]
              simp only [Bool.and_eq_true]
              constructor
              · have b1 := truncate_fields_obj_bound m m1 h1
                have s2 := (headersPass_spec m1 m2 h2).1
                have s3 := (cookiesPass_spec m2 m3 h3).1
                have s4 := (setCookiesPass_spec m3 m4 h4).1
                exact truncBoundObj_of_shortensObj m3 m4 s4
                  (truncBoundObj_of_shortensObj m2 m3 s3
                    (truncBoundObj_of_shortensObj m1 m2 s2 b1))
              · exact passes_passBounds m1 m2 m3 m4 h2 h3 h4
termination_by structural j _ _ => j

theorem truncate_fields_obj_bound : ∀ m m2, truncate_fields_obj m = some m2 →
    truncBoundObj m2 = true
  | [], m2, h => by
      simp [truncate_fields_obj] at h
      subst h
      simp [truncBoundObj]
  | (k, v) :: rest, m2, h => by
      replace h : ((truncate_fields v).bind fun v2 =>
          (truncate_fields_obj rest).bind fun r =>
          some ((k, v2) :: r)) = some m2 := h
      rcases hv : truncate_fields v with _ | v2 <;> rw [hv] at h
      · simp at h
      · rcases hr : truncate_fields_obj rest with _ | r <;> rw [hr] at h
        · simp at h
        · simp at h
          subst h
          rw [truncBoundObj]
          simp [truncate_fields_bound v v2 hv,
            truncate_fields_obj_bound rest r hr]
termination_by structural m _ _ => m

theorem truncate_fields_list_bound : ∀ l l2, truncate_fields_list l = some l2 →
    truncBoundList l2 = true
  | [], l2, h => by
      simp [truncate_fields_list] at h
      subst h
      simp [truncBoundList]
  | v :: rest, l2, h => by
      replace h : ((truncate_fields v).bind fun v2 =>
          (truncate_fields_list rest).bind fun r =>
          some (v2 :: r)) = some l2 := h
      rcases hv : truncate_fields v with _ | v2 <;> rw [hv] at h
      · simp at h
      · rcases hr : truncate_fields_list rest with _ | r <;> rw [hr] at h
        · simp at h
        · simp at h
          subst h
          rw [truncBoundList]
          simp [truncate_fields_bound v v2 hv,
            truncate_fields_list_bound rest r hr]
termination_by structural l _ _ => l

end

/-- C5: the redacted formatter truncates string values without removing
fields: whenever `truncate_fields` succeeds, its output has exactly the
shape of its input with every string at most as long as before
(`shortens`), and in the output every header string value is at most 50
bytes, a string `cookies` field at most 500 bytes and every string
`set_cookies` item at most 50 bytes (`truncBound`); moreover an ASCII
value of length 80 becomes its first 47 bytes plus the 3-byte ellipsis
(total 50), and a value of length 40 passes through unchanged. -/
theorem c5_redaction_truncates :
    (∀ j j2, truncate_fields j = some j2 →
        shortens j j2 = true ∧ truncBound j2 = true) ∧
    (∀ s : RStr, s.length = 80 → isCharBoundary s 47 = true →
        truncate s 50 = some (s.take 47 ++ ellipsis) ∧
        (s.take 47 ++ ellipsis).length = 50) ∧
    (∀ s : RStr, s.length = 40 → truncate s 50 = some s) := by
  refine ⟨fun j j2 h =>
    ⟨truncate_fields_shortens j j2 h, truncate_fields_bound j j2 h⟩, ?_, ?_⟩
  · intro s h80 hb
    have hb2 : isCharBoundary s (50 - 3) = true := hb
    constructor
    · unfold truncate
      rw [if_pos (by omega), if_pos hb2]
    · simp [ellipsis]
      omega
  · intro s h40
    unfold truncate
    rw [if_neg (by omega)]

/-- Witness for C5: the formatter run on a snapshot-shaped object with an
over-long header value, cookie dump and `Set-Cookie` entry, and the two
concrete truncation scenarios. -/
theorem c5_redaction_truncates_witness :
    (shortens exJ ((truncate_fields exJ).getD Json.null) = true ∧
      truncBound ((truncate_fields exJ).getD Json.null) = true) ∧
    (truncate ex80 50 = some (ex80.take 47 ++ ellipsis) ∧
      (ex80.take 47 ++ ellipsis).length = 50) ∧
    truncate ex40 50 = some ex40 :=
  ⟨c5_redaction_truncates.1 exJ ((truncate_fields exJ).getD Json.null) rfl,
   c5_redaction_truncates.2.1 ex80 rfl rfl,
   c5_redaction_truncates.2.2 ex40 rfl⟩

/-- C9: evaluation of the truncation helper at a concrete valid UTF-8
input shows the panic: `cyr60` is a well-formed 60-character, 120-byte
string, yet byte 47 is a UTF-8 continuation byte, so the slice
`&s[0..47]` taken by `truncate(s, 50)` is not at a character boundary and
the function panics (modelled as `none`) instead of returning a
truncated string. -/
theorem c9_truncate_panics_on_multibyte :
    truncate cyr60 50 = none ∧ cyr60.length = 120 ∧
    isCharBoundary cyr60 47 = false ∧ utf8Lossy cyr60 = cyr60 :=
  ⟨by decide, by decide, by decide, by decide⟩

end ReqwestWrapLog
